import Mathlib

/-!
Verification development for the jan-server model gateway.

This file gives a shallow embedding, in Lean 4, of the parts of the
`jan-api-gateway` Go application that the specification's testable
properties talk about:

* the inference-model cache registry
  (`app/domain/inference_model_registry/inference_model_registry.go`),
* the provider registry service (`app/domain/model`, file with
  `RegisterProvider`, `SyncProviderModels`, `GetProviderForModel`, ...),
* the chat-completion HTTP handler and the provider-listing handler.

Modelling conventions, used throughout:

* Go strings are modelled as Lean `String`s and string operations work on
  characters; the Go code indexes bytes, which coincides with the model on
  ASCII data (all identifiers, slugs and keys handled here are ASCII).
* The Redis cache is modelled as a typed record of the keys the registry
  uses; `Get` on an absent key is a cache miss and JSON round-trips are
  identities (marshalling a typed value and unmarshalling it back cannot
  fail), so `json.Marshal` error branches are dropped.
* Database repositories (gorm) are modelled as in-memory lists with
  auto-incremented integer primary keys; repository calls themselves do
  not fail.  Filter matching is modelled from the filter field names and
  the spec since the gorm implementation files are not part of the
  sources given.
* `time.Now()` is a `now : Nat` field of the state, and random id
  generation (`idgen.GenerateSecureID`) is a deterministic counter.
-/

namespace JanGateway

/-- `inference_model.Model`: the OpenAI-style model object cached by the
inference model registry (fields `ID`, `Object`, `Created`, `OwnedBy`). -/
structure InferenceModel where
  id : String
  object : String
  created : Nat
  ownedBy : String
deriving DecidableEq, Repr

/-- Association-list lookup keyed by strings; models both a `map[string]T`
lookup and a Redis `Get` on a keyed family of cache entries (where `none`
is a cache miss / absent key).  Per-service cache keys are keyed here by
the raw service name: the Go code keys them by
`RegistryEndpointModelsKey + ":" + sanitizeKeyPart(name)` and
`sanitizeKeyPart` (raw-URL base64) is injective, so the two keyings are
isomorphic. -/
def lookupAssoc {α : Type} (l : List (String × α)) (k : String) : Option α :=
  (l.find? (fun p => p.1 == k)).map (·.2)

/-- Write-through on an association list: replace the entry when the key
is present, append it otherwise. -/
def setAssoc {α : Type} (l : List (String × α)) (k : String) (v : α) :
    List (String × α) :=
  if (l.find? (fun p => p.1 == k)).isSome then
    l.map (fun p => if p.1 == k then (k, v) else p)
  else l ++ [(k, v)]

/-- Remove an entry from an association list (models `Unlink` of one key). -/
def removeAssoc {α : Type} (l : List (String × α)) (k : String) :
    List (String × α) :=
  l.filter (fun p => p.1 != k)

/-! Character-level string primitives.  These mirror the Go `strings`
functions used by the sources; they are written over the underlying
character list so that every operation evaluates by plain reduction. -/

/-- `strings.TrimSpace` (whitespace at both ends). -/
def trimString (s : String) : String :=
  String.mk (((s.data.dropWhile Char.isWhitespace).reverse.dropWhile Char.isWhitespace).reverse)

/-- `strings.ToLower` (ASCII case folding suffices for the data the
gateway handles). -/
def lowerString (s : String) : String :=
  String.mk (s.data.map Char.toLower)

/-- Byte-lexicographic `<` on strings (Go's `<` on strings; characters
coincide with bytes on ASCII data). -/
def charListLt : List Char → List Char → Bool
  | [], [] => false
  | [], _ :: _ => true
  | _ :: _, [] => false
  | a :: as, b :: bs =>
    if a < b then true
    else if b < a then false
    else charListLt as bs

/-- Go string comparison `a < b`. -/
def stringLt (a b : String) : Bool :=
  charListLt a.data b.data

/-- `strings.Contains`: some tail of `s` starts with `sub`. -/
def containsSub (s sub : String) : Bool :=
  s.data.tails.any (fun t => sub.data.isPrefixOf t)

/-- The typed view of the Redis cache state used by
`InferenceModelRegistry`:
* `modelsList` is the value under `ModelsCacheKey` (aggregate model list),
* `endpointModels` are the per-service entries under
  `RegistryEndpointModelsKey + ":" + sanitizeKeyPart(service)`,
* `modelEndpoints` is the reverse map under `RegistryModelEndpointsKey`.
`none`/absence models both a missing key and an expired entry. -/
structure CacheState where
  modelsList : Option (List InferenceModel)
  endpointModels : List (String × List String)
  modelEndpoints : Option (List (String × List String))
deriving DecidableEq, Repr

/-- The cold cache. -/
def CacheState.empty : CacheState := ⟨none, [], none⟩

/-- The immutable part of an `InferenceModelRegistry` value:
`serviceBaseURL` (trimmed at construction from the chat client's base URL)
and the outcome `provider.GetModels` would produce (`none` models a nil
provider or an upstream error, `some ms` a successful discovery call). -/
structure ModelRegistry where
  serviceBaseURL : String
  providerModels : Option (List InferenceModel)
deriving DecidableEq, Repr

/-- `hasModelsChanged`: compares the new model-ID set for a service with
the cached per-service ID list; a cache miss counts as changed. -/
def hasModelsChanged (st : CacheState) (serviceName : String)
    (newModels : List InferenceModel) : Bool :=
  match lookupAssoc st.endpointModels serviceName with
  | none => true
  | some cachedIDs =>
    if cachedIDs.length ≠ newModels.length then true
    else
      let newIDs := newModels.map (·.id)
      newIDs.any (fun id => !(cachedIDs.contains id))

/-- The loop body of `rebuildModelToEndpointsMapping` (and of the
reverse-map construction in `rebuildModelsFromProvider`): every model of
the aggregate list is attributed to the registry's single configured
`serviceBaseURL`. -/
def buildReverseMap (baseURL : String) (models : List InferenceModel) :
    List (String × List String) :=
  models.foldl (fun acc m =>
    if trimString baseURL ≠ "" then
      match lookupAssoc acc m.id with
      | some urls => setAssoc acc m.id (urls ++ [baseURL])
      | none => acc ++ [(m.id, [baseURL])]
    else acc) []

/-- `rebuildModelToEndpointsMapping`: reads the aggregate model list (an
absent aggregate entry is the error return) and rewrites the reverse map
from it, attributing every model to `serviceBaseURL`. -/
def rebuildModelToEndpointsMapping (r : ModelRegistry) (st : CacheState) :
    Except String CacheState :=
  match st.modelsList with
  | none => .error "cache miss"
  | some allModels =>
    .ok { st with modelEndpoints := some (buildReverseMap r.serviceBaseURL allModels) }

/-- `SetModels`: no-op when `hasModelsChanged` is false; otherwise clears
the reverse map, the aggregate list and every per-service entry
(`DeletePattern` on the per-service key pattern), writes the new
per-service ID list and aggregate list, and rebuilds the reverse map. -/
def setModels (r : ModelRegistry) (st : CacheState) (serviceName : String)
    (models : List InferenceModel) : Except String CacheState :=
  if trimString serviceName = "" then .error "service name cannot be empty"
  else if hasModelsChanged st serviceName models = false then .ok st
  else
    let cleared : CacheState := ⟨none, [], none⟩
    let modelIDs := models.map (·.id)
    let written : CacheState :=
      { cleared with
          endpointModels := setAssoc cleared.endpointModels serviceName modelIDs,
          modelsList := some models }
    rebuildModelToEndpointsMapping r written

/-- `RemoveServiceModels`: reads the per-service ID list before deleting
it (an absent entry is a successful no-op), deletes it, filters those IDs
out of the aggregate list, rewrites the aggregate and rebuilds the
reverse map. -/
def removeServiceModels (r : ModelRegistry) (st : CacheState)
    (serviceName : String) : Except String CacheState :=
  if trimString serviceName = "" then .error "service name cannot be empty"
  else
    match lookupAssoc st.endpointModels serviceName with
    | none => .ok st
    | some serviceModelIDs =>
      let st1 := { st with endpointModels := removeAssoc st.endpointModels serviceName }
      let existing := st1.modelsList.getD []
      let filtered := existing.filter (fun m => !(serviceModelIDs.contains m.id))
      let st2 := { st1 with modelsList := some filtered }
      rebuildModelToEndpointsMapping r st2

/-- `rebuildModelsFromProvider`: with no provider or a blank base URL (or
a failed upstream call) returns the empty list and leaves the cache
untouched; on a successful non-empty discovery it writes the aggregate
list, the per-service entry for the configured base URL and the reverse
map. -/
def rebuildModelsFromProvider (r : ModelRegistry) (st : CacheState) :
    CacheState × List InferenceModel :=
  if trimString r.serviceBaseURL = "" then (st, [])
  else
    match r.providerModels with
    | none => (st, [])
    | some models =>
      if models.length > 0 then
        let modelIDs := models.map (fun m => m.id)
        let st1 := { st with modelsList := some models }
        let st2 := { st1 with
          endpointModels := setAssoc st1.endpointModels r.serviceBaseURL modelIDs }
        let st3 := { st2 with
          modelEndpoints := some (buildReverseMap r.serviceBaseURL models) }
        (st3, models)
      else (st, models)

/-- `GetModelToEndpoints`: read the reverse map; on a miss run the
provider rebuild and re-read, returning the empty map when still absent. -/
def getModelToEndpoints (r : ModelRegistry) (st : CacheState) :
    CacheState × List (String × List String) :=
  match st.modelEndpoints with
  | some m => (st, m)
  | none =>
    let st1 := (rebuildModelsFromProvider r st).1
    match st1.modelEndpoints with
    | some m => (st1, m)
    | none => (st1, [])

/-- `ListModels`: read the aggregate list, rebuilding from the provider on
a miss. -/
def listModels (r : ModelRegistry) (st : CacheState) :
    CacheState × List InferenceModel :=
  match st.modelsList with
  | some ms => (st, ms)
  | none => rebuildModelsFromProvider r st

/-! ### Provider registry: data model -/

/-- `ProviderKind` (`app/domain/model`): the vendor kind enumeration,
including the built-in `jan` kind used by the platform default provider. -/
inductive ProviderKind
  | openai | openrouter | anthropic | gemini | mistral | groq | cohere
  | ollama | replicate | azureOpenAI | awsBedrock | perplexity
  | togetherAI | huggingFace | vercelAI | deepInfra | jan | custom
deriving DecidableEq, Repr

/-- The string value of each `ProviderKind` constant. -/
def ProviderKind.str : ProviderKind → String
  | .openai => "openai"
  | .openrouter => "openrouter"
  | .anthropic => "anthropic"
  | .gemini => "gemini"
  | .mistral => "mistral"
  | .groq => "groq"
  | .cohere => "cohere"
  | .ollama => "ollama"
  | .replicate => "replicate"
  | .azureOpenAI => "azure_openai"
  | .awsBedrock => "aws_bedrock"
  | .perplexity => "perplexity"
  | .togetherAI => "togetherai"
  | .huggingFace => "huggingface"
  | .vercelAI => "vercel_ai"
  | .deepInfra => "deepinfra"
  | .jan => "jan"
  | .custom => "custom"

/-- `providerKindFromVendor`: exact/alias matching of the free-text vendor
hint, falling back to `custom`. -/
def providerKindFromVendor (vendor : String) : ProviderKind :=
  let v := lowerString (trimString vendor)
  if v = "openrouter" then .openrouter
  else if v = "openai" then .openai
  else if v = "anthropic" then .anthropic
  else if v = "gemini" ∨ v = "google" ∨ v = "googleai" then .gemini
  else if v = "mistral" then .mistral
  else if v = "groq" then .groq
  else if v = "cohere" then .cohere
  else if v = "ollama" then .ollama
  else if v = "replicate" then .replicate
  else if v = "azure_openai" ∨ v = "azure-openai" then .azureOpenAI
  else if v = "aws_bedrock" ∨ v = "bedrock" then .awsBedrock
  else if v = "perplexity" then .perplexity
  else if v = "togetherai" ∨ v = "together" then .togetherAI
  else if v = "huggingface" then .huggingFace
  else if v = "vercel_ai" ∨ v = "vercel-ai" ∨ v = "vercel" then .vercelAI
  else if v = "deepinfra" then .deepInfra
  else .custom

/-- `ModelCatalog.Status` state machine: `init → filled → updated`. -/
inductive ModelCatalogStatus
  | init | filled | updated
deriving DecidableEq, Repr

/-- A JSON-like value: the Go `any` produced by `encoding/json` for the
vendor-specific raw model fields (string, float64, bool, `[]any`,
`map[string]any`, nil). -/
inductive RawValue
  | str (s : String)
  | num (q : Rat)
  | boolean (b : Bool)
  | arr (items : List RawValue)
  | obj (fields : List (String × RawValue))
  | null
deriving Repr

/-- `SupportedParameters`: parameter names plus default values
(`map[string]*decimal.Decimal`; a `none` value is a stored nil pointer). -/
structure SupportedParameters where
  names : List String
  default : List (String × Option Rat)
deriving Repr

/-- `Architecture` descriptor of a catalog entry. -/
structure Architecture where
  modality : String
  inputModalities : List String
  outputModalities : List String
  tokenizer : String
  instructType : Option String
deriving DecidableEq, Repr

/-- The `PriceUnit` enumeration of `ProviderModel.Pricing`. -/
inductive PriceUnit
  | per1KPromptTokens | per1KCompletionTokens | perRequest | perImage
  | perWebSearch | perInternalReasoning
deriving DecidableEq, Repr

/-- One priced unit: integer micro-USD amount plus currency code. -/
structure PriceLine where
  unit : PriceUnit
  amount : Int
  currency : String
deriving DecidableEq, Repr

/-- `Pricing`: the list of priced units extracted from the raw data. -/
structure Pricing where
  lines : List PriceLine
deriving DecidableEq, Repr

/-- `TokenLimits` of a provider model. -/
structure TokenLimits where
  contextLength : Int
  maxCompletionTokens : Int
deriving DecidableEq, Repr

/-- `ModelCatalog`: the vendor-agnostic description of one logical model.
The Go struct type itself is declared in a file outside the given
sources; its fields here are the ones `buildModelCatalogFromModel` and
`upsertCatalog` read and write, typed as in the spec's data model. -/
structure ModelCatalog where
  id : Nat
  publicID : String
  supportedParameters : SupportedParameters
  architecture : Architecture
  notes : Option String
  isModerated : Option Bool
  extras : List (String × RawValue)
  status : ModelCatalogStatus
  createdAt : Nat
  lastSyncedAt : Option Nat
deriving Repr

/-- `ProviderModel`: the provider↔catalog linkage row.  As for
`ModelCatalog`, the struct declaration itself is outside the given
sources; the fields are the ones the registry service populates. -/
structure ProviderModel where
  id : Nat
  publicID : String
  providerID : Nat
  modelCatalogID : Option Nat
  modelKey : String
  displayName : String
  pricing : Pricing
  tokenLimits : Option TokenLimits
  family : Option String
  supportsImages : Bool
  supportsEmbeddings : Bool
  supportsReasoning : Bool
  active : Bool
deriving DecidableEq, Repr

/-- `Provider`: the configured upstream backend aggregate root (current
schema, with optional organization and project references). -/
structure Provider where
  id : Nat
  publicID : String
  slug : String
  organizationID : Option Nat
  projectID : Option Nat
  displayName : String
  kind : ProviderKind
  baseURL : String
  encryptedAPIKey : String
  apiKeyHint : Option String
  isModerated : Bool
  active : Bool
  metadata : List (String × String)
  lastSyncedAt : Option Nat
deriving DecidableEq, Repr

/-- `chatclient.Model`: the discovered-model shape consumed by the
registry service.  Modelled from the spec: the chat client's model type
is declared outside the given sources; per spec §6 a discovery entry is
`{id, ...}` plus vendor-specific extra fields (`Raw`), and the service
additionally reads `CanonicalSlug` and `DisplayName`. -/
structure ChatModel where
  id : String
  canonicalSlug : String
  displayName : String
  raw : List (String × RawValue)
deriving Repr

/-! ### Provider registry: string and raw-value helpers -/

/-- A character admitted by the slug regex character class `[a-z0-9]`. -/
def isSlugChar (c : Char) : Bool :=
  ('a' ≤ c ∧ c ≤ 'z') ∨ ('0' ≤ c ∧ c ≤ '9')

/-- Collapse consecutive dashes to one (the `+` of the slug regex
`[^a-z0-9]+`, after each offending character was mapped to `-`). -/
def collapseDashes : List Char → List Char
  | [] => []
  | [c] => [c]
  | c :: d :: t =>
    if c = '-' ∧ d = '-' then collapseDashes (d :: t)
    else c :: collapseDashes (d :: t)

/-- Drop leading and trailing dashes (`strings.Trim(s, "-")`). -/
def trimDashes (l : List Char) : List Char :=
  ((l.dropWhile (fun c => c = '-')).reverse.dropWhile (fun c => c = '-')).reverse

/-- `slugify`: lower-case, trim, collapse runs of non-`[a-z0-9]` to a
single `-`, trim dashes at both ends. -/
def slugify (input : String) : String :=
  let s := lowerString (trimString input)
  let mapped := s.data.map (fun c => if isSlugChar c then c else '-')
  String.mk (trimDashes (collapseDashes mapped))

/-- `slugCandidate`: the base slug text `kind-name`. -/
def slugCandidate (kind : ProviderKind) (name : String) : String :=
  kind.str ++ "-" ++ name

/-- `apiKeyHint`: trim; fewer than 4 characters gives no hint, otherwise
the hint is the last 4 characters of the trimmed key.  (Go indexes bytes;
this coincides with characters on ASCII keys.) -/
def apiKeyHint (apiKey : String) : Option String :=
  let key := trimString apiKey
  if key.data.length < 4 then none
  else some (String.mk (key.data.drop (key.data.length - 4)))

/-- `normalizeURL`: trim whitespace and strip trailing `/` characters. -/
def normalizeURL (baseURL : String) : String :=
  let s := trimString baseURL
  String.mk ((s.data.reverse.dropWhile (fun c => c = '/')).reverse)

/-- Modelled from the spec: `net/url.ParseRequestURI` (standard library,
not part of the sources) accepts an absolute URL or an absolute path and
rejects the empty string and strings containing spaces; its full grammar
is not reproduced. -/
def parseRequestURIOk (s : String) : Bool :=
  s ≠ "" ∧ ¬ s.data.any (fun c => c = ' ') ∧
    (containsSub s "://" ∨ "/".data.isPrefixOf s.data)

/-- `sanitizeMetadata`: trim keys and values, drop entries whose trimmed
key is empty; an empty result is the nil map (empty list here).  The Go
map iteration order is unspecified; the model folds in list order. -/
def sanitizeMetadata (meta : List (String × String)) : List (String × String) :=
  if meta.length = 0 then []
  else
    meta.foldl (fun acc kv =>
      let key := trimString kv.1
      let value := trimString kv.2
      if key = "" then acc else setAssoc acc key value) []

/-- `containsString`: case-insensitive membership in a string slice. -/
def containsString (list : List String) (target : String) : Bool :=
  let t := lowerString target
  list.any (fun item => lowerString item == t)

/-- `getString`: a present string-typed raw field, trimmed.  The Go
function returns `("", false)` both for an absent key and for a
non-string value; `none` models that `false`. -/
def getString (raw : List (String × RawValue)) (key : String) : Option String :=
  match lookupAssoc raw key with
  | some (.str s) => some (trimString s)
  | _ => none

/-- `extractStringSlice`: the trimmed string elements of a raw `[]any`
value; anything that is not an array yields the empty list. -/
def extractStringSlice (value : Option RawValue) : List String :=
  match value with
  | some (.arr items) =>
    items.foldr (fun it acc =>
      match it with
      | .str s => trimString s :: acc
      | _ => acc) []
  | _ => []

/-- The path walk of `extractStringSliceFromMap`: each step requires a
`map[string]any`; a missing key or a non-map value ends the walk with
nothing. -/
def walkRaw : Option RawValue → List String → Option RawValue
  | v, [] => v
  | some (.obj fields), k :: rest => walkRaw (lookupAssoc fields k) rest
  | _, _ :: _ => none

/-- `extractStringSliceFromMap`: follow a key path through nested raw
maps, then extract a string slice. -/
def extractStringSliceFromMap (raw : List (String × RawValue))
    (path : List String) : List String :=
  extractStringSlice (walkRaw (some (.obj raw)) path)

/-! Decimal parsing.  `decimal.NewFromString` / `decimal.NewFromFloat`
(`shopspring/decimal`, a library outside the sources) are modelled on
exact rationals: a decimal literal with optional sign, fraction and
exponent parses to the rational it denotes, and `IntPart` truncates
toward zero. -/

/-- The numeric value of a list of decimal digit characters. -/
def parseNatDigits (ds : List Char) : Nat :=
  ds.foldl (fun n c => n * 10 + (c.toNat - 48)) 0

/-- Parse the unsigned mantissa `digits[.digits]` of a decimal literal,
returning the digit value together with the number of fraction digits. -/
def parseMantissa (cs : List Char) : Option (Nat × Nat) :=
  let intPart := cs.takeWhile Char.isDigit
  let rest := cs.dropWhile Char.isDigit
  match rest with
  | [] => if intPart.isEmpty then none else some (parseNatDigits intPart, 0)
  | '.' :: frac =>
    let fracPart := frac.takeWhile Char.isDigit
    let rest2 := frac.dropWhile Char.isDigit
    if ¬ rest2.isEmpty then none
    else if intPart.isEmpty ∧ fracPart.isEmpty then none
    else some (parseNatDigits (intPart ++ fracPart), fracPart.length)
  | _ => none

/-- Split a decimal literal at the first `e`/`E` exponent marker. -/
def splitAtExp : List Char → List Char × Option (List Char)
  | [] => ([], none)
  | c :: t =>
    if c = 'e' ∨ c = 'E' then ([], some t)
    else
      let (m, e) := splitAtExp t
      (c :: m, e)

/-- Modelled from the spec: `decimal.NewFromString` parses a signed
decimal literal with optional fraction and exponent into an exact
decimal; here it yields the denoted rational, `none` on malformed
input. -/
def parseDecimal (s : String) : Option Rat :=
  let cs := s.data
  let signAndRest : Int × List Char :=
    match cs with
    | '+' :: t => (1, t)
    | '-' :: t => (-1, t)
    | _ => (1, cs)
  let (mantChars, expChars) := splitAtExp signAndRest.2
  match parseMantissa mantChars with
  | none => none
  | some (m, scale) =>
    let base : Rat := (signAndRest.1 * (m : Int) : Int) / ((10 : Rat) ^ scale)
    match expChars with
    | none => some base
    | some echars =>
      let expSignAndRest : Bool × List Char :=
        match echars with
        | '+' :: t => (true, t)
        | '-' :: t => (false, t)
        | _ => (true, echars)
      let ds := expSignAndRest.2.takeWhile Char.isDigit
      let rest := expSignAndRest.2.dropWhile Char.isDigit
      if ds.isEmpty ∨ ¬ rest.isEmpty then none
      else
        let e := parseNatDigits ds
        some (if expSignAndRest.1 then base * (10 : Rat) ^ e
              else base / (10 : Rat) ^ e)

/-- Truncation toward zero (`decimal.Decimal.IntPart`, and Go's
float-to-int conversion). -/
def truncToInt (q : Rat) : Int :=
  if 0 ≤ q then q.floor else q.ceil

/-- `decimalToMicroUSD`: multiply by 1,000,000 and truncate. -/
def decimalToMicroUSD (d : Rat) : Int :=
  truncToInt (d * 1000000)

/-- `microUSDFromAny`: strings parse as decimals (empty is an error),
numbers convert directly, anything else is an error (`none`). -/
def microUSDFromAny (value : Option RawValue) : Option Int :=
  match value with
  | some (.str s) =>
    if trimString s = "" then none
    else (parseDecimal s).map decimalToMicroUSD
  | some (.num q) => some (decimalToMicroUSD q)
  | _ => none

/-- `intFromAny`: numbers truncate, strings parse as decimals and take
the integer part, everything else is 0. -/
def intFromAny (value : Option RawValue) : Int :=
  match value with
  | some (.num q) => truncToInt q
  | some (.str s) =>
    if trimString s = "" then 0
    else
      match parseDecimal s with
      | some d => truncToInt d
      | none => 0
  | _ => 0

/-- `extractPricing`: for each known pricing key present in the raw
pricing map whose amount converts, append a USD price line. -/
def extractPricing (value : Option RawValue) : Pricing :=
  match value with
  | some (.obj pricingMap) =>
    let mappings : List (String × PriceUnit) :=
      [("prompt", .per1KPromptTokens), ("completion", .per1KCompletionTokens),
       ("request", .perRequest), ("image", .perImage),
       ("web_search", .perWebSearch), ("internal_reasoning", .perInternalReasoning)]
    ⟨mappings.foldl (fun acc kv =>
      match lookupAssoc pricingMap kv.1 with
      | some amount =>
        match microUSDFromAny (some amount) with
        | some micro => acc ++ [⟨kv.2, micro, "USD"⟩]
        | none => acc
      | none => acc) []⟩
  | _ => ⟨[]⟩

/-- `extractTokenLimits`: prefer the `top_provider` limits, fall back per
field to the top-level ones; both zero means no limits. -/
def extractTokenLimits (raw : List (String × RawValue)) : Option TokenLimits :=
  let fromTop : Int × Int :=
    match lookupAssoc raw "top_provider" with
    | some (.obj topProvider) =>
      (intFromAny (lookupAssoc topProvider "context_length"),
       intFromAny (lookupAssoc topProvider "max_completion_tokens"))
    | _ => (0, 0)
  let contextLength :=
    if fromTop.1 = 0 then intFromAny (lookupAssoc raw "context_length") else fromTop.1
  let completionLength :=
    if fromTop.2 = 0 then intFromAny (lookupAssoc raw "max_completion_tokens") else fromTop.2
  if contextLength = 0 ∧ completionLength = 0 then none
  else some ⟨contextLength, completionLength⟩

/-- `extractFamily`: the namespace before the first `/` of the model key,
when one is present. -/
def extractFamily (modelID : String) : Option String :=
  if modelID = "" then none
  else if modelID.data.contains '/' then some (String.mk (modelID.data.takeWhile (fun c => c ≠ '/')))
  else none

/-- `extractDefaultParameters`: nil raw values store a nil default,
strings parse as decimals (blank stores nil, malformed stores nothing),
numbers store directly, other types are ignored.  Go map iteration order
is unspecified; the model folds in list order. -/
def extractDefaultParameters (value : Option RawValue) :
    List (String × Option Rat) :=
  match value with
  | some (.obj params) =>
    params.foldl (fun acc kv =>
      match kv.2 with
      | .null => setAssoc acc kv.1 none
      | .str s =>
        if trimString s = "" then setAssoc acc kv.1 none
        else
          match parseDecimal s with
          | some d => setAssoc acc kv.1 (some d)
          | none => acc
      | .num q => setAssoc acc kv.1 (some q)
      | _ => acc) []
  | _ => []

/-! ### Provider registry: repositories and service operations -/

/-- `ProviderFilter`: optional query conditions on providers. -/
structure ProviderFilter where
  ids : Option (List Nat) := none
  publicID : Option String := none
  slug : Option String := none
  organizationID : Option Nat := none
  projectID : Option Nat := none
  projectIDs : Option (List Nat) := none
  withoutProject : Option Bool := none
  kind : Option ProviderKind := none
  active : Option Bool := none
deriving Repr

/-- Modelled from the spec: the gorm `ProviderRepository` implementation
is outside the given sources; each set filter field contributes one
conjunct (`projectIDs` is an `IN` condition on the project reference,
`withoutProject = true` requires a null project reference). -/
def providerMatches (f : ProviderFilter) (p : Provider) : Bool :=
  (match f.ids with | none => true | some l => l.contains p.id) &&
  (match f.publicID with | none => true | some s => p.publicID = s) &&
  (match f.slug with | none => true | some s => p.slug = s) &&
  (match f.organizationID with | none => true | some o => p.organizationID = some o) &&
  (match f.projectID with | none => true | some pid => p.projectID = some pid) &&
  (match f.projectIDs with
   | none => true
   | some l => match p.projectID with
     | some pid => l.contains pid
     | none => false) &&
  (match f.withoutProject with
   | none => true
   | some b => if b then p.projectID = none else true) &&
  (match f.kind with | none => true | some k => p.kind = k) &&
  (match f.active with | none => true | some b => p.active = b)

/-- `ProviderModelFilter`: optional query conditions on provider models. -/
structure ProviderModelFilter where
  providerID : Option Nat := none
  providerIDs : Option (List Nat) := none
  modelKey : Option String := none
  active : Option Bool := none
deriving Repr

/-- Modelled from the spec: the gorm `ProviderModelRepository`
implementation is outside the given sources; each set filter field
contributes one conjunct. -/
def providerModelMatches (f : ProviderModelFilter) (pm : ProviderModel) : Bool :=
  (match f.providerID with | none => true | some i => pm.providerID = i) &&
  (match f.providerIDs with | none => true | some l => l.contains pm.providerID) &&
  (match f.modelKey with | none => true | some k => pm.modelKey = k) &&
  (match f.active with | none => true | some b => pm.active = b)

/-- The durable state behind `ProviderRegistryService`: the three
repositories as in-memory tables with auto-increment primary keys, the
deterministic counter standing in for `idgen.GenerateSecureID`, and the
current time. -/
structure RegistryState where
  providers : List Provider
  providerModels : List ProviderModel
  catalogs : List ModelCatalog
  nextProviderID : Nat := 1
  nextProviderModelID : Nat := 1
  nextCatalogID : Nat := 1
  nextSecureID : Nat := 1
  now : Nat := 0
deriving Repr

/-- The environment the service reads: the default organization's id
(`organization.DEFAULT_ORGANIZATION`, assumed initialized as the server
start-up sequence guarantees), the platform encryption secret and the
built-in Jan backend URL. -/
structure Env where
  defaultOrgID : Nat
  modelProviderSecret : String
  janInferenceModelURL : String
deriving Repr

/-- Modelled from the spec: `crypto.EncryptString` (outside the given
sources) symmetrically encrypts the key under the platform secret and
cannot fail once a secret is present; the registry logic only ever
stores the ciphertext opaquely. -/
def encryptString (secret plain : String) : String :=
  "enc(" ++ secret ++ "," ++ plain ++ ")"

/-- `idgen.GenerateSecureID`, made deterministic: tag plus counter. -/
def genSecureID (tag : String) (n : Nat) : String :=
  tag ++ "_" ++ toString n

/-- `common.Error`: a message plus the stable opaque error code attached
at the point of origin. -/
structure CommonError where
  message : String
  code : String
deriving DecidableEq, Repr

/-- `RegisterProviderInput` (zero-valued numeric fields mean absent). -/
structure RegisterProviderInput where
  organizationID : Nat
  projectID : Nat
  name : String
  vendor : String
  baseURL : String
  apiKey : String
  metadata : List (String × String)
  active : Bool
deriving Repr

/-- `UpdateProviderInput`: the optional patch fields. -/
structure UpdateProviderInput where
  name : Option String := none
  baseURL : Option String := none
  apiKey : Option String := none
  metadata : Option (List (String × String)) := none
  active : Option Bool := none
deriving Repr

/-- The organization id a registration resolves to: the input's, or the
default organization's when the input carries none. -/
def resolvedOrgID (env : Env) (input : RegisterProviderInput) : Nat :=
  if input.organizationID ≠ 0 then input.organizationID else env.defaultOrgID

/-- The optional project reference a registration resolves to. -/
def resolvedProjectID (input : RegisterProviderInput) : Option Nat :=
  if input.projectID ≠ 0 then some input.projectID else none

/-- The slug search loop of `generateUniqueSlug`: try `candidate`, then
`candidate-2`, `candidate-3`, ... until no provider holds the slug.  The
Go loop is unbounded; the model carries fuel, and one more try than
there are providers always suffices (each try is a distinct slug). -/
def generateUniqueSlugLoop (st : RegistryState) (candidate : String) :
    Nat → Nat → Option String
  | 0, _ => none
  | fuel + 1, counter =>
    let slug := if counter = 1 then candidate else candidate ++ "-" ++ toString counter
    if ((st.providers.filter (providerMatches { slug := some slug })).take 1).isEmpty then
      some slug
    else generateUniqueSlugLoop st candidate fuel (counter + 1)

/-- `generateUniqueSlug`: slugify the base (empty slugs become
`provider`) and search for a free slug. -/
def generateUniqueSlug (st : RegistryState) (base : String) : Option String :=
  let candidate := if slugify base = "" then "provider" else slugify base
  generateUniqueSlugLoop st candidate (st.providers.length + 1) 1

/-- The uniqueness filter of the non-`custom` conflict check in
`RegisterProvider`: same kind, same organization, and either the very
same project or (for organization-scoped registrations) no project. -/
def conflictFilter (kind : ProviderKind) (organizationID : Option Nat)
    (projectID : Option Nat) : ProviderFilter :=
  let f0 : ProviderFilter := { kind := some kind, organizationID := organizationID }
  match projectID with
  | some pid => { f0 with projectID := some pid }
  | none => { f0 with withoutProject := some true }

/-- The repository `Count` of the conflict check is positive. -/
def conflictExists (st : RegistryState) (kind : ProviderKind)
    (organizationID : Option Nat) (projectID : Option Nat) : Bool :=
  if kind ≠ ProviderKind.custom then
    (st.providers.filter (providerMatches (conflictFilter kind organizationID projectID))).length > 0
  else false

/-- The API-key encryption step of `RegisterProvider`: a present key
requires the platform secret and is encrypted; an absent key stores the
empty ciphertext. -/
def encryptAPIKeyStep (env : Env) (plainAPIKey : String) :
    Except CommonError String :=
  if plainAPIKey ≠ "" then
    let secret := trimString env.modelProviderSecret
    if secret = "" then
      .error ⟨"model provider secret is not configured",
              "2f2a5cf4-5f2d-49ca-9e60-dfb09efc3a9e"⟩
    else .ok (encryptString secret plainAPIKey)
  else .ok ""

/-- `RegisterProvider`: validate name and base URL, derive the vendor
kind, resolve organization and project scope, enforce the
one-active-provider-per-kind-per-scope invariant for non-custom kinds,
generate slug and public id, encrypt the API key when present (requiring
the platform secret), and persist the provider row. -/
def registerProvider (env : Env) (st : RegistryState)
    (input : RegisterProviderInput) :
    Except CommonError (RegistryState × Provider) :=
  let name := trimString input.name
  if name = "" then
    .error ⟨"provider name is required", "64f1d0d7-4a41-49e9-a4f5-61226c0b83c5"⟩
  else
    let baseURL := trimString input.baseURL
    if baseURL = "" then
      .error ⟨"base_url is required", "9f0f7d62-4bbd-4d61-980e-dfc4d67a45f1"⟩
    else if parseRequestURIOk baseURL = false then
      .error ⟨"invalid base url", "6c04d2f8-c39a-41a4-8d4a-0c2787b6ee2f"⟩
    else
      let kind := providerKindFromVendor input.vendor
      let organizationID := some (resolvedOrgID env input)
      let projectID := resolvedProjectID input
      if conflictExists st kind organizationID projectID then
        .error ⟨"provider kind already exists", "323d2e23-4a8a-4f89-b090-4d49a0b0ca12"⟩
      else
        match generateUniqueSlug st (slugCandidate kind name) with
        | none =>
          .error ⟨"slug generation failed", "6df1386c-5aa0-4105-9366-74ad8637bd1a"⟩
        | some slug =>
          let publicID := genSecureID "prov" st.nextSecureID
          let st0 := { st with nextSecureID := st.nextSecureID + 1 }
          let plainAPIKey := trimString input.apiKey
          let hint := apiKeyHint plainAPIKey
          match encryptAPIKeyStep env plainAPIKey with
          | .error e => .error e
          | .ok encryptedAPIKey =>
            let provider : Provider :=
              { id := st0.nextProviderID
                publicID := publicID
                slug := slug
                organizationID := organizationID
                projectID := projectID
                displayName := name
                kind := kind
                baseURL := normalizeURL baseURL
                encryptedAPIKey := encryptedAPIKey
                apiKeyHint := hint
                isModerated := false
                active := input.active
                metadata := sanitizeMetadata input.metadata
                lastSyncedAt := none }
            .ok ({ st0 with
                     providers := st0.providers ++ [provider],
                     nextProviderID := st0.nextProviderID + 1 },
                 provider)

/-- The optional name patch of `UpdateProvider`. -/
def updateNameStep (nameOpt : Option String) (p : Provider) :
    Except CommonError Provider :=
  match nameOpt with
  | none => .ok p
  | some nm =>
    let n := trimString nm
    if n = "" then
      .error ⟨"provider name is required", "f65f5ec0-d9de-42da-8ae8-91f7f16c470a"⟩
    else .ok { p with displayName := n }

/-- The optional base-URL patch of `UpdateProvider`. -/
def updateBaseURLStep (urlOpt : Option String) (p : Provider) :
    Except CommonError Provider :=
  match urlOpt with
  | none => .ok p
  | some b =>
    let u := trimString b
    if u = "" then
      .error ⟨"base_url is required", "6eaf9ef7-281b-45f7-9b8d-668f6d2f5d8e"⟩
    else if parseRequestURIOk u = false then
      .error ⟨"invalid base url", "1fbfba8e-4fa9-4e06-8132-8d6754d88d5f"⟩
    else .ok { p with baseURL := normalizeURL u }

/-- The optional API-key patch of `UpdateProvider`: an empty trimmed key
clears ciphertext and hint; a non-empty key requires the platform secret
and stores the new ciphertext and hint. -/
def updateAPIKeyStep (env : Env) (keyOpt : Option String) (p : Provider) :
    Except CommonError Provider :=
  match keyOpt with
  | none => .ok p
  | some k0 =>
    let key := trimString k0
    if key = "" then
      .ok { p with encryptedAPIKey := "", apiKeyHint := none }
    else
      let secret := trimString env.modelProviderSecret
      if secret = "" then
        .error ⟨"model provider secret is not configured",
                "ae950cb5-2f5a-4415-bc15-eec48c92610a"⟩
      else
        .ok { p with
                encryptedAPIKey := encryptString secret key,
                apiKeyHint := apiKeyHint key }

/-- The optional metadata patch of `UpdateProvider`. -/
def applyMetadataStep (metaOpt : Option (List (String × String)))
    (p : Provider) : Provider :=
  match metaOpt with
  | none => p
  | some m => { p with metadata := sanitizeMetadata m }

/-- The optional active-flag patch of `UpdateProvider`. -/
def applyActiveStep (activeOpt : Option Bool) (p : Provider) : Provider :=
  match activeOpt with
  | none => p
  | some a => { p with active := a }

/-- `UpdateProvider`: apply only the supplied patch fields in order
(name, base URL, API key — the empty string clears key and hint —
metadata, active), then persist the updated row. -/
def updateProvider (env : Env) (st : RegistryState) (provider : Provider)
    (input : UpdateProviderInput) :
    Except CommonError (RegistryState × Provider) :=
  match updateNameStep input.name provider with
  | .error e => .error e
  | .ok p1 =>
    match updateBaseURLStep input.baseURL p1 with
    | .error e => .error e
    | .ok p2 =>
      match updateAPIKeyStep env input.apiKey p2 with
      | .error e => .error e
      | .ok p3 =>
        let p4 := applyMetadataStep input.metadata p3
        let p5 := applyActiveStep input.active p4
        .ok ({ st with
                 providers := st.providers.map (fun q => if q.id = p5.id then p5 else q) },
             p5)

/-- `catalogPublicID`: the canonical slug when it slugifies to something
non-empty, otherwise the slugified model id. -/
def catalogPublicID (model : ChatModel) : String :=
  if slugify model.canonicalSlug ≠ "" then slugify model.canonicalSlug
  else slugify model.id

/-- `buildModelCatalogFromModel`: a fresh catalog value from raw vendor
data.  Status is `filled` for OpenRouter-sourced data and `init`
otherwise; notes, supported parameters, architecture and moderation flag
are extracted from the raw map, which is also kept whole as extras. -/
def buildModelCatalogFromModel (kind : ProviderKind) (model : ChatModel) :
    ModelCatalog :=
  let status :=
    if kind = ProviderKind.openrouter then ModelCatalogStatus.filled
    else ModelCatalogStatus.init
  let notes : Option String :=
    match getString model.raw "description" with
    | some desc => if desc ≠ "" then some desc else none
    | none => none
  let supportedParameters : SupportedParameters :=
    ⟨extractStringSlice (lookupAssoc model.raw "supported_parameters"),
     extractDefaultParameters (lookupAssoc model.raw "default_parameters")⟩
  let architecture : Architecture :=
    match lookupAssoc model.raw "architecture" with
    | some (.obj archMap) =>
      { modality := (getString archMap "modality").getD ""
        inputModalities := extractStringSlice (lookupAssoc archMap "input_modalities")
        outputModalities := extractStringSlice (lookupAssoc archMap "output_modalities")
        tokenizer := (getString archMap "tokenizer").getD ""
        instructType :=
          match getString archMap "instruct_type" with
          | some it => if it ≠ "" then some it else none
          | none => none }
    | _ => ⟨"", [], [], "", none⟩
  let isModerated : Option Bool :=
    match lookupAssoc model.raw "top_provider" with
    | some (.obj topProvider) =>
      match lookupAssoc topProvider "is_moderated" with
      | some (.boolean b) => some b
      | _ => none
    | _ => none
  { id := 0
    publicID := ""
    supportedParameters := supportedParameters
    architecture := architecture
    notes := notes
    isModerated := isModerated
    extras := model.raw
    status := status
    createdAt := 0
    lastSyncedAt := none }

/-- `upsertCatalog`: find the catalog row by derived public id; an
existing `filled`/`updated` row is preserved untouched and returned as
is; an existing `init` row is overwritten with the freshly built data
(keeping id and creation time); a missing row is created.  Repository
reads and writes are infallible in the model, so the Go error returns
around them disappear. -/
def upsertCatalog (st : RegistryState) (kind : ProviderKind)
    (model : ChatModel) : RegistryState × ModelCatalog :=
  let publicID := catalogPublicID model
  let existing := st.catalogs.find? (fun c => c.publicID = publicID)
  let catalog0 := buildModelCatalogFromModel kind model
  let catalog1 := { catalog0 with publicID := publicID, lastSyncedAt := some st.now }
  match existing with
  | some ex =>
    let catalog2 := { catalog1 with id := ex.id, createdAt := ex.createdAt }
    if ex.status = ModelCatalogStatus.filled ∨ ex.status = ModelCatalogStatus.updated then
      (st, ex)
    else
      let catalog3 :=
        if catalog2.status = ModelCatalogStatus.filled ∧
           ex.status = ModelCatalogStatus.updated then
          { catalog2 with status := ex.status }
        else catalog2
      ({ st with
           catalogs := st.catalogs.map (fun c => if c.id = catalog3.id then catalog3 else c) },
       catalog3)
  | none =>
    let catalog2 := { catalog1 with id := st.nextCatalogID }
    ({ st with
         catalogs := st.catalogs ++ [catalog2],
         nextCatalogID := st.nextCatalogID + 1 },
     catalog2)

/-- `buildProviderModelFromRaw`: a fresh provider-model row from raw
vendor data (pricing, token limits, family from the `/`-namespace prefix,
capability flags, active flag mirroring the provider). -/
def buildProviderModelFromRaw (provider : Provider) (catalogID : Option Nat)
    (model : ChatModel) : ProviderModel :=
  { id := 0
    publicID := ""
    providerID := provider.id
    modelCatalogID := catalogID
    modelKey := model.id
    displayName := if model.displayName = "" then model.id else model.displayName
    pricing := extractPricing (lookupAssoc model.raw "pricing")
    tokenLimits := extractTokenLimits model.raw
    family := extractFamily model.id
    supportsImages :=
      containsString (extractStringSliceFromMap model.raw ["architecture", "input_modalities"]) "image"
    supportsEmbeddings := containsSub (lowerString model.id) "embed"
    supportsReasoning :=
      containsString (extractStringSlice (lookupAssoc model.raw "supported_parameters")) "include_reasoning"
    active := provider.active }

/-- `updateProviderModelFromRaw`: rewrite the mutable fields of an
existing provider-model row from raw vendor data. -/
def updateProviderModelFromRaw (pm : ProviderModel) (provider : Provider)
    (catalogID : Option Nat) (model : ChatModel) : ProviderModel :=
  { pm with
      modelCatalogID := catalogID
      displayName := if model.displayName = "" then model.id else model.displayName
      pricing := extractPricing (lookupAssoc model.raw "pricing")
      tokenLimits := extractTokenLimits model.raw
      family := extractFamily model.id
      supportsImages :=
        containsString (extractStringSliceFromMap model.raw ["architecture", "input_modalities"]) "image"
      supportsEmbeddings := containsSub (lowerString model.id) "embed"
      supportsReasoning :=
        containsString (extractStringSlice (lookupAssoc model.raw "supported_parameters")) "include_reasoning"
      active := provider.active }

/-- `upsertProviderModel`: an empty trimmed model identifier is the
`model identifier missing` error; otherwise the row keyed by
(provider, trimmed model key) is updated when present and created
otherwise. -/
def upsertProviderModel (st : RegistryState) (provider : Provider)
    (catalog : ModelCatalog) (model : ChatModel) :
    Except CommonError (RegistryState × ProviderModel) :=
  let modelKey := trimString model.id
  if modelKey = "" then
    .error ⟨"model identifier missing", "1c5c6609-6df1-41b0-8fd9-2fa337eb0050"⟩
  else
    let existing :=
      (st.providerModels.filter
        (providerModelMatches { providerID := some provider.id, modelKey := some modelKey })).take 1
    let catalogID := some catalog.id
    match existing with
    | pm :: _ =>
      let pm' := updateProviderModelFromRaw pm provider catalogID model
      .ok ({ st with
               providerModels := st.providerModels.map (fun q => if q.id = pm'.id then pm' else q) },
           pm')
    | [] =>
      let publicID := genSecureID "pmdl" st.nextSecureID
      let st0 := { st with nextSecureID := st.nextSecureID + 1 }
      let pm0 := buildProviderModelFromRaw provider catalogID model
      let pm1 := { pm0 with publicID := publicID, id := st0.nextProviderModelID }
      .ok ({ st0 with
               providerModels := st0.providerModels ++ [pm1],
               nextProviderModelID := st0.nextProviderModelID + 1 },
           pm1)

/-- One synced (provider model, catalog) pair. -/
structure ProviderModelSyncResult where
  providerModel : ProviderModel
  catalog : ModelCatalog
deriving Repr

/-- The loop of `syncModels`: per model, upsert the catalog then the
provider-model row, aggregating results; the first error stops the loop,
keeping the state committed so far. -/
def syncModelsLoop (provider : Provider) :
    RegistryState → List ProviderModelSyncResult → List ChatModel →
    RegistryState × Except CommonError (List ProviderModelSyncResult)
  | st, acc, [] => (st, .ok acc)
  | st, acc, m :: rest =>
    let step := upsertCatalog st provider.kind m
    match upsertProviderModel step.1 provider step.2 m with
    | .error e => (step.1, .error e)
    | .ok (st2, pm) =>
      syncModelsLoop provider st2 (acc ++ [⟨pm, step.2⟩]) rest

/-- `syncModels` over a discovered batch. -/
def syncModels (st : RegistryState) (provider : Provider)
    (models : List ChatModel) :
    RegistryState × Except CommonError (List ProviderModelSyncResult) :=
  syncModelsLoop provider st [] models

/-- `SyncProviderModels`: run the batch sync, then stamp the provider's
last-synced time and persist it. -/
def syncProviderModels (st : RegistryState) (provider : Provider)
    (models : List ChatModel) :
    RegistryState × Except CommonError (List ProviderModelSyncResult) :=
  match syncModels st provider models with
  | (st1, .error e) => (st1, .error e)
  | (st1, .ok results) =>
    let p' := { provider with lastSyncedAt := some st1.now }
    ({ st1 with
         providers := st1.providers.map (fun q => if q.id = p'.id then p' else q) },
     .ok results)

/-- The first-occurrence id-deduplication of `ListAccessibleProviders`
(`seen` holds already-emitted provider ids). -/
def dedupByID : List Provider → List Nat → List Provider
  | [], _ => []
  | p :: rest, seen =>
    if seen.contains p.id then dedupByID rest seen
    else p :: dedupByID rest (p.id :: seen)

/-- `ListAccessibleProviders`: project-scoped providers of the caller's
projects first (queried only when the caller has projects), then the
organization's project-less providers, then the default organization's
project-less providers, de-duplicated by id keeping first occurrences. -/
def listAccessibleProviders (env : Env) (st : RegistryState)
    (organizationID : Nat) (projectIDs : List Nat) : List Provider :=
  let projectProviders :=
    if projectIDs.length > 0 then
      st.providers.filter
        (providerMatches { organizationID := some organizationID, projectIDs := some projectIDs })
    else []
  let orgProviders :=
    st.providers.filter
      (providerMatches { organizationID := some organizationID, withoutProject := some true })
  let globalProviders :=
    st.providers.filter
      (providerMatches { organizationID := some env.defaultOrgID, withoutProject := some true })
  dedupByID (projectProviders ++ orgProviders ++ globalProviders) []

/-- `GetProviderForModel`: resolve the accessible providers in priority
order, find the active provider-model rows for the key, and return the
first accessible provider owning one. -/
def getProviderForModel (env : Env) (st : RegistryState) (modelKey : String)
    (organizationID : Nat) (projectIDs : List Nat) : Except String Provider :=
  if trimString modelKey = "" then .error "model key is required"
  else
    let providers := listAccessibleProviders env st organizationID projectIDs
    if providers.length = 0 then .error "no accessible providers found"
    else
      let providerIDs := providers.map (fun p => p.id)
      if providerIDs.length = 0 then .error "no accessible providers found"
      else
        let providerModels :=
          st.providerModels.filter
            (providerModelMatches
              { providerIDs := some providerIDs, modelKey := some modelKey, active := some true })
        if providerModels.length = 0 then
          .error ("model '" ++ modelKey ++ "' not found in accessible providers")
        else
          let hasModel := providerModels.map (fun pm => pm.providerID)
          match providers.find? (fun p => hasModel.contains p.id) with
          | some p => .ok p
          | none => .error ("no valid provider found for model '" ++ modelKey ++ "'")

/-- `DefaultProvider`: the built-in Jan fallback provider (Go zero values
for the unset fields). -/
def defaultProvider (env : Env) : Provider :=
  { id := 0
    publicID := ""
    slug := ""
    organizationID := none
    projectID := none
    displayName := "Jan"
    kind := ProviderKind.jan
    baseURL := env.janInferenceModelURL
    encryptedAPIKey := ""
    apiKeyHint := none
    isModerated := false
    active := true
    metadata := []
    lastSyncedAt := none }

/-- `GetProviderForModelOrDefault`: the resolved provider with a false
fallback flag on success; the default provider, a true flag and the
resolution error otherwise. -/
def getProviderForModelOrDefault (env : Env) (st : RegistryState)
    (modelKey : String) (organizationID : Nat) (projectIDs : List Nat) :
    Provider × Bool × Option String :=
  match getProviderForModel env st modelKey organizationID projectIDs with
  | .ok p => (p, false, none)
  | .error e => (defaultProvider env, true, some e)

/-! ### HTTP handlers: completion endpoint and provider listing -/

/-- One role-tagged chat message. -/
structure ChatMessage where
  role : String
  content : String
deriving DecidableEq, Repr

/-- The chat-completion request fields the handler inspects. -/
structure ChatCompletionRequest where
  model : String
  messages : List ChatMessage
  stream : Bool
deriving DecidableEq, Repr

/-- The observable outcome of one `PostCompletion` invocation: HTTP
status, error code/message of the response body when aborted,
how many registry resolutions ran and how many backend chat-client calls
were issued. -/
structure CompletionOutcome where
  status : Nat
  errorCode : Option String
  errorMessage : Option String
  resolutions : Nat
  backendCalls : Nat
deriving DecidableEq, Repr

/-- The handler-level `getProviderForModel` wrapper of `CompletionAPI`:
a missing user context or a failed project lookup falls back to the
default provider without consulting the registry; otherwise the registry
resolves with the default organization and the user's projects,
falling back to the default provider on failure.  It never returns an
error.  The second component counts registry resolutions performed. -/
def handlerGetProviderForModel (env : Env) (st : RegistryState)
    (userPresent : Bool) (projectsResult : Except String (List Nat))
    (modelKey : String) : Provider × Nat :=
  if userPresent = false then (defaultProvider env, 0)
  else
    match projectsResult with
    | .error _ => (defaultProvider env, 0)
    | .ok projectIDs =>
      ((getProviderForModelOrDefault env st modelKey env.defaultOrgID projectIDs).1, 1)

/-- `PostCompletion`: JSON binding failure aborts with 400; an empty
message list aborts with 400 `messages cannot be empty` before provider
resolution; otherwise the provider is resolved and exactly one backend
call (streaming or buffered, per the request flag) is issued, whose
outcome (`backendResult`, the chat client being an external
collaborator) decides between 200 and an aborted 400. -/
def postCompletion (env : Env) (st : RegistryState) (userPresent : Bool)
    (projectsResult : Except String (List Nat))
    (bound : Except String ChatCompletionRequest)
    (backendResult : Except CommonError Unit) : CompletionOutcome :=
  match bound with
  | .error _ =>
    { status := 400
      errorCode := some "0199600b-86d3-7339-8402-8ef1c7840475"
      errorMessage := none
      resolutions := 0
      backendCalls := 0 }
  | .ok request =>
    if request.messages.length = 0 then
      { status := 400
        errorCode := some "0199600f-2cbe-7518-be5c-9989cce59472"
        errorMessage := some "messages cannot be empty"
        resolutions := 0
        backendCalls := 0 }
    else
      let resolved := handlerGetProviderForModel env st userPresent projectsResult request.model
      match backendResult with
      | .error e =>
        { status := 400
          errorCode := some e.code
          errorMessage := some e.message
          resolutions := resolved.2
          backendCalls := 1 }
      | .ok _ =>
        { status := 200
          errorCode := none
          errorMessage := none
          resolutions := resolved.2
          backendCalls := 1 }

/-- One entry of the provider-listing response. -/
structure ProviderSummary where
  id : String
  slug : String
  name : String
  vendor : String
  baseURL : String
  active : Bool
  metadata : List (String × String)
  scope : String
  projectPublicID : Option String
deriving DecidableEq, Repr

/-- The handler's `scopeOrder` map with its default
(`len(scopeOrder) = 3` for unknown labels). -/
def scopeOrderNat (scope : String) : Nat :=
  if scope = "jan" then 0
  else if scope = "organization" then 1
  else if scope = "project" then 2
  else 3

/-- The scope label and project public id resolution of the
provider-listing loop: project-referenced providers are `project`
(carrying the project's public id when known), providers with no
organization are `jan`, the rest are `organization`. -/
def providerScope (projectPublicIDs : List (Nat × String)) (p : Provider) :
    String × Option String :=
  match p.projectID with
  | some pid =>
    ("project", (projectPublicIDs.find? (fun q => q.1 = pid)).map (fun q => q.2))
  | none =>
    if p.organizationID = none then ("jan", none) else ("organization", none)

/-- One provider's summary row as the listing handler builds it. -/
def summarize (projectPublicIDs : List (Nat × String)) (p : Provider) :
    ProviderSummary :=
  let sc := providerScope projectPublicIDs p
  { id := p.publicID
    slug := p.slug
    name := p.displayName
    vendor := lowerString p.kind.str
    baseURL := p.baseURL
    active := p.active
    metadata := p.metadata
    scope := sc.1
    projectPublicID := sc.2 }

/-- The handler's `sort.Slice` comparator: name order within one scope
label, `scopeOrder` otherwise. -/
def summaryLess (a b : ProviderSummary) : Bool :=
  if a.scope = b.scope then stringLt a.name b.name
  else scopeOrderNat a.scope < scopeOrderNat b.scope

/-- Insert into a sorted list with respect to `summaryLess` (before the
first element it compares less than). -/
def insertSummary (x : ProviderSummary) :
    List ProviderSummary → List ProviderSummary
  | [] => [x]
  | y :: t => if summaryLess x y then x :: y :: t else y :: insertSummary x t

/-- The sort of the listing handler.  `sort.Slice` is an unstable sort
under the comparator above; it is modelled by a deterministic
comparator-respecting insertion sort. -/
def sortSummaries : List ProviderSummary → List ProviderSummary
  | [] => []
  | x :: t => insertSummary x (sortSummaries t)

/-- `listProviders` (model-route handler): summarize the caller's
accessible providers with resolved scope labels, then sort by the scope
comparator. -/
def listProviders (projectPublicIDs : List (Nat × String))
    (providers : List Provider) : List ProviderSummary :=
  sortSummaries (providers.map (summarize projectPublicIDs))

/-! ### Concrete instances used by the closed theorems below -/

/-- A model as cached by the inference-model registry. -/
def c1Model : InferenceModel := ⟨"m2", "model", 0, "system"⟩

/-- A registry whose configured chat-client base URL is `"S"`. -/
def c1Registry : ModelRegistry := ⟨"S", none⟩

/-- The cache state after `SetModels("T", [m2])` on `c1Registry`: note the
reverse map attributes `m2` to the configured base URL `"S"`, not to the
service `"T"` that reported it. -/
def c1AfterSet : CacheState := ⟨some [c1Model], [("T", ["m2"])], some [("m2", ["S"])]⟩

/-- An environment with default organization 1 and a configured secret. -/
def exEnv : Env := ⟨1, "topsecret", "http://jan.local"⟩

/-- A keyless OpenAI-kind registration for organization 2. -/
def c3Input : RegisterProviderInput :=
  ⟨2, 0, "Acme", "openai", "https://api.openai.example/v1", "", [], true⟩

/-- The provider row `c3Input` creates on the empty state. -/
def c3Prov : Provider :=
  { id := 1, publicID := "prov_1", slug := "openai-acme",
    organizationID := some 2, projectID := none, displayName := "Acme",
    kind := .openai, baseURL := "https://api.openai.example/v1",
    encryptedAPIKey := "", apiKeyHint := none, isModerated := false,
    active := true, metadata := [], lastSyncedAt := none }

/-- The empty registry state. -/
def c3St0 : RegistryState := ⟨[], [], [], 1, 1, 1, 1, 0⟩

/-- The registry state after registering `c3Input` on `c3St0`. -/
def c3St1 : RegistryState := ⟨[c3Prov], [], [], 2, 1, 1, 2, 0⟩

/-- A discovered model with no vendor extras. -/
def c2Model : ChatModel := ⟨"m1", "", "", []⟩

/-- An already-enriched (`filled`) catalog entry for `m1`. -/
def c2Cat : ModelCatalog :=
  ⟨1, "m1", ⟨[], []⟩, ⟨"", [], [], "", none⟩, none, none, [], .filled, 5, none⟩

/-- A registry state holding only the enriched `c2Cat`. -/
def c2St : RegistryState := ⟨[], [], [c2Cat], 1, 1, 2, 1, 9⟩

/-- A cache registry configured for the Jan backend. -/
def c7Reg : ModelRegistry := ⟨"https://jan.local", none⟩

/-- A model cached for service `svcA`. -/
def c7Model : InferenceModel := ⟨"llama", "model", 1, "jan"⟩

/-- The cache state after a successful `SetModels("svcA", [llama])`. -/
def c7St1 : CacheState :=
  ⟨some [c7Model], [("svcA", ["llama"])], some [("llama", ["https://jan.local"])]⟩

/-- A registration carrying the API key `sk-abcd1234`. -/
def c10Input : RegisterProviderInput :=
  ⟨2, 0, "Acme", "openai", "https://api.openai.example/v1", "sk-abcd1234", [], true⟩

/-- The provider row `c10Input` creates on the empty state. -/
def c10Prov : Provider :=
  { c3Prov with
      encryptedAPIKey := "enc(topsecret,sk-abcd1234)"
      apiKeyHint := some "1234" }

/-- The registry state after registering `c10Input` on the empty state. -/
def c10St1 : RegistryState := ⟨[c10Prov], [], [], 2, 1, 1, 2, 0⟩

/-- An organization-scoped provider of organization 2 serving `shared`. -/
def c4P1 : Provider :=
  { id := 1, publicID := "prov_p1", slug := "openai-one",
    organizationID := some 2, projectID := none, displayName := "One",
    kind := .openai, baseURL := "https://one.example", encryptedAPIKey := "",
    apiKeyHint := none, isModerated := false, active := true, metadata := [],
    lastSyncedAt := none }

/-- A project-scoped provider (project 7) of the same organization. -/
def c4P2 : Provider :=
  { c4P1 with
      id := 2, publicID := "prov_p2", slug := "anthropic-two",
      displayName := "Two", kind := .anthropic, projectID := some 7,
      baseURL := "https://two.example" }

/-- `c4P1`'s active row for model key `shared`. -/
def c4PM1 : ProviderModel :=
  { id := 1, publicID := "pmdl_1", providerID := 1, modelCatalogID := none,
    modelKey := "shared", displayName := "shared", pricing := ⟨[]⟩,
    tokenLimits := none, family := none, supportsImages := false,
    supportsEmbeddings := false, supportsReasoning := false, active := true }

/-- `c4P2`'s active row for model key `shared`. -/
def c4PM2 : ProviderModel :=
  { c4PM1 with id := 2, publicID := "pmdl_2", providerID := 2 }

/-- Registry state with both providers serving `shared`. -/
def c4St : RegistryState := ⟨[c4P1, c4P2], [c4PM1, c4PM2], [], 3, 3, 1, 3, 0⟩

/-- A project-scoped provider named `Alpha`. -/
def c9ProjProv : Provider :=
  { c4P1 with organizationID := some 1, projectID := some 1, displayName := "Alpha" }

/-- A platform-default (`jan`-scoped) provider named `Beta`. -/
def c9JanProv : Provider :=
  { c4P1 with id := 2, organizationID := none, projectID := none, displayName := "Beta" }

/-- An empty-message chat-completion request. -/
def c8Request : ChatCompletionRequest := ⟨"gpt-4", [], false⟩

/-- A good model for a sync batch. -/
def c6Good : ChatModel := ⟨"a", "", "", []⟩

/-- A model whose identifier trims to the empty string. -/
def c6Bad : ChatModel := ⟨" ", "", "", []⟩

/-- A model after the bad one in the batch. -/
def c6Post : ChatModel := ⟨"b", "", "", []⟩

/-!
## Theorems

Auxiliary lemmas first, then one theorem per specification claim (with a
closed witness where the theorem carries hypotheses).
-/

/-- A list never reports one of its own elements as missing. -/
theorem any_not_contains_self (l : List String) :
    (l.any fun x => !(l.contains x)) = false := by
  rw [List.any_eq_false]
  intro x hx
  simp [hx]

/-- The head surviving `dropWhile p` fails `p`. -/
theorem dropWhile_head_not (p : Char → Bool) :
    ∀ (l : List Char) (c : Char) (t : List Char),
      l.dropWhile p = c :: t → p c = false := by
  intro l
  induction l with
  | nil => intro c t h; simp at h
  | cons a as ih =>
    intro c t h
    rw [List.dropWhile_cons] at h
    split at h
    · exact ih c t h
    next hpa =>
      cases h
      simpa using hpa

/-- Left-trimming again after a right trim of a left-trimmed list is a
no-op (the first character already fails the predicate). -/
theorem dropWhile_rdropWhile_dropWhile (w : Char → Bool) (m : List Char) :
    (List.rdropWhile w (m.dropWhile w)).dropWhile w
      = List.rdropWhile w (m.dropWhile w) := by
  rcases hX : List.rdropWhile w (m.dropWhile w) with _ | ⟨c, t⟩
  · rfl
  · obtain ⟨r, hr⟩ := List.rdropWhile_prefix w (m.dropWhile w)
    rw [hX] at hr
    have hm : m.dropWhile w = c :: (t ++ r) := by
      rw [← hr]; rfl
    have hc : w c = false := dropWhile_head_not w m c (t ++ r) hm
    rw [List.dropWhile_cons, hc]
    simp

/-- The two-sided whitespace trim of a character list is idempotent. -/
theorem trimList_idem (l : List Char) :
    let trimL := fun (m : List Char) =>
      ((m.dropWhile Char.isWhitespace).reverse.dropWhile Char.isWhitespace).reverse
    trimL (trimL l) = trimL l := by
  intro trimL
  show List.rdropWhile Char.isWhitespace
      ((List.rdropWhile Char.isWhitespace (l.dropWhile Char.isWhitespace)).dropWhile
        Char.isWhitespace)
    = List.rdropWhile Char.isWhitespace (l.dropWhile Char.isWhitespace)
  rw [dropWhile_rdropWhile_dropWhile, List.rdropWhile_idempotent]

/-- `trimString` is idempotent. -/
theorem trimString_idem (s : String) : trimString (trimString s) = trimString s :=
  congrArg String.mk (trimList_idem s.data)

/-- Inversion of a successful `RegisterProvider`: the created provider
carries the derived kind, the resolved organization and project scope and
the hint of the trimmed key, and is appended to the provider table. -/
theorem registerProvider_ok_shape (env : Env) (st : RegistryState)
    (input : RegisterProviderInput) (st' : RegistryState) (p : Provider)
    (h : registerProvider env st input = .ok (st', p)) :
    p.kind = providerKindFromVendor input.vendor ∧
    p.organizationID = some (resolvedOrgID env input) ∧
    p.projectID = resolvedProjectID input ∧
    p.apiKeyHint = apiKeyHint (trimString input.apiKey) ∧
    st'.providers = st.providers ++ [p] := by
  simp only [registerProvider] at h
  split at h
  · exact absurd h (by simp)
  split at h
  · exact absurd h (by simp)
  split at h
  · exact absurd h (by simp)
  split at h
  · exact absurd h (by simp)
  split at h
  · exact absurd h (by simp)
  split at h
  · exact absurd h (by simp)
  simp only [Except.ok.injEq, Prod.mk.injEq] at h
  obtain ⟨h1, h2⟩ := h
  subst h1
  subst h2
  exact ⟨rfl, rfl, rfl, rfl, rfl⟩

/-- **C1** (code bug): the claim reads `after RemoveBackendModels(S)
completes successfully, an immediately following GetModelToBackends()
does not include S among the backend URLs returned for any model key`.
The code violates it: with the registry configured for base URL `S`,
caching the models of a different service `T` attributes `T`'s models to
`S` in the reverse map (`rebuildModelToEndpointsMapping` only ever
attributes to the single configured base URL); a subsequent successful
`RemoveServiceModels("S")` is a no-op, and `GetModelToEndpoints` still
returns `S` for model `m2`. -/
theorem removeServiceModels_leaves_backend_in_reverse_map :
    setModels c1Registry CacheState.empty "T" [c1Model] = .ok c1AfterSet ∧
    removeServiceModels c1Registry c1AfterSet "S" = .ok c1AfterSet ∧
    (getModelToEndpoints c1Registry c1AfterSet).2 = [("m2", ["S"])] :=
  ⟨by rfl, by rfl, by rfl⟩

/-- **C2**: catalog status is monotonic.  An existing entry whose status
is `filled` or `updated` is returned untouched by `upsertCatalog` (state
unchanged, entry returned as stored, so status and enriched fields are
preserved whatever the incoming data); and whenever `upsertCatalog`
changes the state of an existing entry, that entry's prior status was
`init`. -/
theorem upsertCatalog_status_monotonic (st : RegistryState) (kind : ProviderKind)
    (model : ChatModel) :
    (∀ e, st.catalogs.find? (fun c => c.publicID = catalogPublicID model) = some e →
      (e.status = ModelCatalogStatus.filled ∨ e.status = ModelCatalogStatus.updated) →
      upsertCatalog st kind model = (st, e)) ∧
    (∀ st' c, upsertCatalog st kind model = (st', c) → st' ≠ st →
      (st.catalogs.find? (fun c => c.publicID = catalogPublicID model) = none ∨
       ∃ e, st.catalogs.find? (fun c => c.publicID = catalogPublicID model) = some e ∧
         e.status = ModelCatalogStatus.init)) := by
  constructor
  · intro e he hst
    rw [upsertCatalog, he]
    simp only [if_pos hst]
  · intro st' c hup hne
    rw [upsertCatalog] at hup
    cases hfind : st.catalogs.find? (fun c => c.publicID = catalogPublicID model) with
    | none => exact Or.inl rfl
    | some e =>
      rw [hfind] at hup
      simp only at hup
      by_cases hst : e.status = ModelCatalogStatus.filled ∨ e.status = ModelCatalogStatus.updated
      · rw [if_pos hst] at hup
        cases hup
        exact absurd rfl hne
      · refine Or.inr ⟨e, rfl, ?_⟩
        cases hs : e.status with
        | init => rfl
        | filled => exact absurd (Or.inl hs) hst
        | updated => exact absurd (Or.inr hs) hst

/-- Witness for C2: upserting over the already-`filled` entry `c2Cat`
leaves state and entry unchanged. -/
theorem upsertCatalog_status_monotonic_witness :
    upsertCatalog c2St ProviderKind.openai c2Model = (c2St, c2Cat) :=
  (upsertCatalog_status_monotonic c2St ProviderKind.openai c2Model).1 c2Cat
    (by rfl) (Or.inl rfl)

/-- **C3**: a second registration with the same non-`custom` vendor kind,
the same resolved organization and the same project scope as a
previously successful one fails with the `ConflictError`
`provider kind already exists` (and, the model being pure, persists
nothing). -/
theorem registerProvider_duplicate_kind_conflict
    (env : Env) (st : RegistryState) (input1 input2 : RegisterProviderInput)
    (st' : RegistryState) (p : Provider)
    (h1 : registerProvider env st input1 = .ok (st', p))
    (hnc : providerKindFromVendor input1.vendor ≠ ProviderKind.custom)
    (hk : providerKindFromVendor input2.vendor = providerKindFromVendor input1.vendor)
    (horg : resolvedOrgID env input2 = resolvedOrgID env input1)
    (hproj : resolvedProjectID input2 = resolvedProjectID input1)
    (hn : ¬ trimString input2.name = "")
    (hb : ¬ trimString input2.baseURL = "")
    (hu : parseRequestURIOk (trimString input2.baseURL) = true) :
    registerProvider env st' input2 =
      .error ⟨"provider kind already exists", "323d2e23-4a8a-4f89-b090-4d49a0b0ca12"⟩ := by
  obtain ⟨hk1, horg1, hproj1, _, hprov⟩ := registerProvider_ok_shape env st input1 st' p h1
  simp only [registerProvider]
  rw [if_neg hn, if_neg hb]
  rw [if_neg (show ¬ parseRequestURIOk (trimString input2.baseURL) = false by simp [hu])]
  have hconf : conflictExists st' (providerKindFromVendor input2.vendor)
      (some (resolvedOrgID env input2)) (resolvedProjectID input2) = true := by
    rw [hk, horg, hproj]
    rw [conflictExists, if_pos hnc]
    rw [decide_eq_true_iff]
    have hmem : p ∈ st'.providers.filter
        (providerMatches (conflictFilter (providerKindFromVendor input1.vendor)
          (some (resolvedOrgID env input1)) (resolvedProjectID input1))) := by
      apply List.mem_filter.mpr
      refine ⟨?_, ?_⟩
      · rw [hprov]
        exact List.mem_append_right _ (List.mem_singleton.mpr rfl)
      · rcases hcase : resolvedProjectID input1 with _ | pid
        · simp [conflictFilter, providerMatches, hk1, horg1, hproj1, hcase]
        · simp [conflictFilter, providerMatches, hk1, horg1, hproj1, hcase]
    exact List.length_pos.mpr (List.ne_nil_of_mem hmem)
  rw [if_pos hconf]

/-- Witness for C3: registering `c3Input` twice on the empty state; the
second call returns the conflict error. -/
theorem registerProvider_duplicate_kind_conflict_witness :
    registerProvider exEnv c3St1 c3Input =
      .error ⟨"provider kind already exists", "323d2e23-4a8a-4f89-b090-4d49a0b0ca12"⟩ :=
  registerProvider_duplicate_kind_conflict exEnv c3St0 c3Input c3Input c3St1 c3Prov
    (by rfl) (by decide) rfl rfl rfl (by decide) (by decide) (by rfl)

/-- Every element of the de-duplicated list comes from the input list. -/
theorem dedupByID_sub : ∀ (l : List Provider) (seen : List Nat) (q : Provider),
    q ∈ dedupByID l seen → q ∈ l := by
  intro l
  induction l with
  | nil => intro seen q h; simp [dedupByID] at h
  | cons y t ih =>
    intro seen q h
    rw [dedupByID] at h
    split at h
    · exact List.mem_cons_of_mem _ (ih _ q h)
    · rcases List.mem_cons.mp h with rfl | h2
      · exact List.mem_cons_self _ _
      · exact List.mem_cons_of_mem _ (ih _ q h2)

/-- The de-duplicated list keeps a representative of every unseen id. -/
theorem dedupByID_covers : ∀ (l : List Provider) (seen : List Nat) (x : Provider),
    x ∈ l → x.id ∉ seen → ∃ q ∈ dedupByID l seen, q.id = x.id := by
  intro l
  induction l with
  | nil => intro seen x hx; simp at hx
  | cons y t ih =>
    intro seen x hx hseen
    rw [dedupByID]
    split
    next hy =>
      have hxt : x ∈ t := by
        rcases List.mem_cons.mp hx with rfl | h
        · exact absurd (by simpa using hy) hseen
        · exact h
      exact ih seen x hxt hseen
    next hy =>
      by_cases hid : x.id = y.id
      · exact ⟨y, List.mem_cons_self _ _, hid.symm⟩
      · have hxt : x ∈ t := by
          rcases List.mem_cons.mp hx with rfl | h
          · exact absurd rfl hid
          · exact h
        have hseen' : x.id ∉ y.id :: seen := by
          simp only [List.mem_cons]
          rintro (h1 | h2)
          · exact hid h1
          · exact hseen h2
        obtain ⟨q, hq1, hq2⟩ := ih (y.id :: seen) x hxt hseen'
        exact ⟨q, List.mem_cons_of_mem _ hq1, hq2⟩

/-- When some element of the first segment satisfies an id-based
predicate, the first match over the de-duplicated concatenation lies in
that first segment. -/
theorem find_dedup_append (ids : List Nat) :
    ∀ (l1 l2 : List Provider) (seen : List Nat),
      (∃ x ∈ l1, ids.contains x.id = true ∧ x.id ∉ seen) →
      ∃ q ∈ l1, (dedupByID (l1 ++ l2) seen).find? (fun p => ids.contains p.id) = some q ∧
        ids.contains q.id = true := by
  intro l1
  induction l1 with
  | nil => rintro l2 seen ⟨x, hx, _⟩; simp at hx
  | cons y t ih =>
    rintro l2 seen ⟨x, hx, hpx, hseen⟩
    rw [List.cons_append, dedupByID]
    split
    next hy =>
      have hxt : x ∈ t := by
        rcases List.mem_cons.mp hx with rfl | h
        · exact absurd (by simpa using hy) hseen
        · exact h
      obtain ⟨q, hq1, hq2, hq3⟩ := ih l2 seen ⟨x, hxt, hpx, hseen⟩
      exact ⟨q, List.mem_cons_of_mem _ hq1, hq2, hq3⟩
    next hy =>
      by_cases hpy : ids.contains y.id = true
      · exact ⟨y, List.mem_cons_self _ _, List.find?_cons_of_pos _ hpy, hpy⟩
      · have hxt : x ∈ t := by
          rcases List.mem_cons.mp hx with rfl | h
          · exact absurd hpx hpy
          · exact h
        have hid : x.id ≠ y.id := by
          intro he
          rw [he] at hpx
          exact hpy hpx
        have hseen' : x.id ∉ y.id :: seen := by
          simp only [List.mem_cons]
          rintro (h1 | h2)
          · exact hid h1
          · exact hseen h2
        obtain ⟨q, hq1, hq2, hq3⟩ := ih l2 (y.id :: seen) ⟨x, hxt, hpx, hseen'⟩
        refine ⟨q, List.mem_cons_of_mem _ hq1, ?_, hq3⟩
        have hstep : List.find? (fun p => ids.contains p.id)
            (y :: dedupByID (t ++ l2) (y.id :: seen))
            = List.find? (fun p => ids.contains p.id) (dedupByID (t ++ l2) (y.id :: seen)) :=
          List.find?_cons_of_neg _ hpy
        rw [hstep]
        exact hq2

/-- Matching the project-scope filter means: the caller's organization
and a project among the caller's projects. -/
theorem providerMatches_project_filter (organizationID : Nat) (projectIDs : List Nat)
    (q : Provider)
    (h : providerMatches { organizationID := some organizationID,
                           projectIDs := some projectIDs } q = true) :
    q.organizationID = some organizationID ∧
      ∃ qpid, q.projectID = some qpid ∧ qpid ∈ projectIDs := by
  simp only [providerMatches, Bool.and_eq_true] at h
  obtain ⟨⟨⟨⟨⟨⟨⟨⟨hids, hpub⟩, hslug⟩, horg⟩, hproj⟩, hpids⟩, hwo⟩, hkind⟩, hact⟩ := h
  constructor
  · exact of_decide_eq_true horg
  · rcases hqp : q.projectID with _ | qpid
    · rw [hqp] at hpids
      simp at hpids
    · rw [hqp] at hpids
      exact ⟨qpid, rfl, by simpa using hpids⟩

/-- A row matching the resolution filter carries the model key and is
active. -/
theorem providerModelMatches_extract (ids : List Nat) (key : String) (pm' : ProviderModel)
    (h : providerModelMatches { providerIDs := some ids, modelKey := some key,
                                active := some true } pm' = true) :
    pm'.modelKey = key ∧ pm'.active = true := by
  simp only [providerModelMatches, Bool.and_eq_true] at h
  obtain ⟨⟨⟨hpid, hpids⟩, hkey⟩, hact⟩ := h
  exact ⟨of_decide_eq_true hkey, of_decide_eq_true hact⟩

/-- **C4**: scope priority of resolution.  Whenever some accessible
project-scoped provider (the caller's organization, a project among the
caller's projects) has an active provider-model row for the key,
`GetProviderForModel` succeeds and returns a project-scoped provider —
in particular never an organization-scoped provider such as P1 — because
the accessible-provider order is project first, then organization, then
platform default, de-duplicated by identity, and the first provider in
that order owning the model wins. -/
theorem getProviderForModel_prefers_project_scope
    (env : Env) (st : RegistryState) (modelKey : String) (organizationID : Nat)
    (projectIDs : List Nat) (p2 : Provider) (pm : ProviderModel)
    (hkey : ¬ trimString modelKey = "")
    (hp2 : p2 ∈ st.providers)
    (horg2 : p2.organizationID = some organizationID)
    (hpid : ∃ pid, p2.projectID = some pid ∧ pid ∈ projectIDs)
    (hpm : pm ∈ st.providerModels) (hpmp : pm.providerID = p2.id)
    (hpmk : pm.modelKey = modelKey) (hpma : pm.active = true) :
    ∃ q, getProviderForModel env st modelKey organizationID projectIDs = .ok q ∧
      q.organizationID = some organizationID ∧
      (∃ qpid, q.projectID = some qpid ∧ qpid ∈ projectIDs) ∧
      (∀ p1 : Provider, p1.projectID = none → q ≠ p1) := by
  obtain ⟨pid, hpid1, hpid2⟩ := hpid
  have hlen : projectIDs.length > 0 := List.length_pos.mpr (List.ne_nil_of_mem hpid2)
  have haccEq : listAccessibleProviders env st organizationID projectIDs
      = dedupByID
          (st.providers.filter (providerMatches
            { organizationID := some organizationID, projectIDs := some projectIDs })
           ++ (st.providers.filter (providerMatches
                { organizationID := some organizationID, withoutProject := some true })
               ++ st.providers.filter (providerMatches
                { organizationID := some env.defaultOrgID, withoutProject := some true }))) [] := by
    rw [listAccessibleProviders, if_pos hlen, List.append_assoc]
  set l1 := st.providers.filter (providerMatches
    { organizationID := some organizationID, projectIDs := some projectIDs }) with hl1def
  set rest := st.providers.filter (providerMatches
      { organizationID := some organizationID, withoutProject := some true })
    ++ st.providers.filter (providerMatches
      { organizationID := some env.defaultOrgID, withoutProject := some true }) with hrestdef
  have hm2 : providerMatches
      { organizationID := some organizationID, projectIDs := some projectIDs } p2 = true := by
    simp [providerMatches, horg2, hpid1, hpid2]
  have hl1mem : p2 ∈ l1 := List.mem_filter.mpr ⟨hp2, hm2⟩
  obtain ⟨q0, hq0mem, hq0id⟩ := dedupByID_covers (l1 ++ rest) [] p2
    (List.mem_append_left _ hl1mem) (by simp)
  have hidmem : p2.id ∈ (dedupByID (l1 ++ rest) []).map (fun p => p.id) := by
    rw [← hq0id]
    exact List.mem_map_of_mem _ hq0mem
  have hpmm : providerModelMatches
      { providerIDs := some ((dedupByID (l1 ++ rest) []).map (fun p => p.id)),
        modelKey := some modelKey, active := some true } pm = true := by
    simp [providerModelMatches, hpmk, hpma, hpmp, hidmem]
  have hpmmem : pm ∈ st.providerModels.filter (providerModelMatches
      { providerIDs := some ((dedupByID (l1 ++ rest) []).map (fun p => p.id)),
        modelKey := some modelKey, active := some true }) :=
    List.mem_filter.mpr ⟨hpm, hpmm⟩
  have hp2has : ((st.providerModels.filter (providerModelMatches
      { providerIDs := some ((dedupByID (l1 ++ rest) []).map (fun p => p.id)),
        modelKey := some modelKey, active := some true })).map
      (fun pm => pm.providerID)).contains p2.id = true := by
    rw [← hpmp]
    simp only [List.contains_iff_exists_mem_beq]
    exact ⟨pm.providerID, List.mem_map_of_mem _ hpmmem, by simp⟩
  obtain ⟨q, hql1, hqfind, hqpred⟩ := find_dedup_append
    ((st.providerModels.filter (providerModelMatches
      { providerIDs := some ((dedupByID (l1 ++ rest) []).map (fun p => p.id)),
        modelKey := some modelKey, active := some true })).map (fun pm => pm.providerID))
    l1 rest [] ⟨p2, hl1mem, hp2has, by simp⟩
  obtain ⟨hqorg, hqproj⟩ := providerMatches_project_filter organizationID projectIDs q
    (List.mem_filter.mp hql1).2
  refine ⟨q, ?_, hqorg, hqproj, ?_⟩
  · simp only [getProviderForModel]
    rw [if_neg hkey, haccEq]
    have hne1 : ¬ (dedupByID (l1 ++ rest) []).length = 0 := by
      rw [List.length_eq_zero]
      exact List.ne_nil_of_mem hq0mem
    rw [if_neg hne1]
    rw [if_neg (by simpa using hne1)]
    rw [if_neg (by
      rw [List.length_eq_zero]
      exact List.ne_nil_of_mem hpmmem)]
    rw [hqfind]
  · obtain ⟨qpid, hq1, _⟩ := hqproj
    intro p1 h1 heq
    rw [heq, h1] at hq1
    cases hq1

/-- Witness for C4: with the organization-scoped `c4P1` and the
project-scoped `c4P2` both serving `shared`, a caller of organization 2
with project 7 resolves to a project-scoped provider — concretely to
`c4P2`, not `c4P1`. -/
theorem getProviderForModel_prefers_project_scope_witness :
    (∃ q, getProviderForModel exEnv c4St "shared" 2 [7] = .ok q ∧
      q.organizationID = some 2 ∧
      (∃ qpid, q.projectID = some qpid ∧ qpid ∈ [7]) ∧
      (∀ p1 : Provider, p1.projectID = none → q ≠ p1)) ∧
    getProviderForModel exEnv c4St "shared" 2 [7] = .ok c4P2 :=
  ⟨getProviderForModel_prefers_project_scope exEnv c4St "shared" 2 [7] c4P2 c4PM2
      (by decide) (by decide) rfl ⟨7, rfl, by decide⟩ (by decide) rfl rfl rfl,
   by rfl⟩

/-- **C5**: `GetProviderForModelOrDefault` returns the built-in Jan
default provider with the fallback flag true exactly when the underlying
resolution fails (carrying the resolution error); on success it returns
the resolved provider with the flag false — and that provider is
accessible and genuinely serves the model key through an active
provider-model row, so the flag is never true in that case. -/
theorem getProviderForModelOrDefault_fallback
    (env : Env) (st : RegistryState) (modelKey : String) (organizationID : Nat)
    (projectIDs : List Nat) :
    (∀ e, getProviderForModel env st modelKey organizationID projectIDs = .error e →
      getProviderForModelOrDefault env st modelKey organizationID projectIDs
        = (defaultProvider env, true, some e)) ∧
    (∀ p, getProviderForModel env st modelKey organizationID projectIDs = .ok p →
      getProviderForModelOrDefault env st modelKey organizationID projectIDs
        = (p, false, none) ∧
      p ∈ listAccessibleProviders env st organizationID projectIDs ∧
      ∃ pm ∈ st.providerModels, pm.providerID = p.id ∧ pm.modelKey = modelKey ∧
        pm.active = true) := by
  constructor
  · intro e h
    rw [getProviderForModelOrDefault, h]
  · intro p h
    refine ⟨by rw [getProviderForModelOrDefault, h], ?_⟩
    simp only [getProviderForModel] at h
    split at h
    · exact absurd h (by simp)
    split at h
    · exact absurd h (by simp)
    split at h
    · exact absurd h (by simp)
    split at h
    · exact absurd h (by simp)
    split at h
    next q hfind =>
      simp only [Except.ok.injEq] at h
      subst h
      refine ⟨List.mem_of_find?_eq_some hfind, ?_⟩
      have hpred := List.find?_some hfind
      simp only [List.contains_iff_exists_mem_beq] at hpred
      obtain ⟨i, hi, hbeq⟩ := hpred
      obtain ⟨pm', hpm'm, hpm'id⟩ := List.mem_map.mp hi
      obtain ⟨hpm'mem, hpm'match⟩ := List.mem_filter.mp hpm'm
      obtain ⟨hk, ha⟩ := providerModelMatches_extract _ _ _ hpm'match
      refine ⟨pm', hpm'mem, ?_, hk, ha⟩
      rw [hpm'id]
      have hqi : q.id = i := by simpa using hbeq
      exact hqi.symm
    next hfind => exact absurd h (by simp)

/-- Witness for C5: with no providers registered, resolution fails and
the default Jan provider is returned with the fallback flag set. -/
theorem getProviderForModelOrDefault_fallback_witness :
    getProviderForModelOrDefault exEnv c3St0 "m" 5 []
      = (defaultProvider exEnv, true, some "no accessible providers found") :=
  (getProviderForModelOrDefault_fallback exEnv c3St0 "m" 5 []).1
    "no accessible providers found" (by rfl)

/-- `upsertProviderModel` succeeds on every model whose trimmed
identifier is non-empty (the repository being infallible, the missing
identifier is its only error). -/
theorem upsertProviderModel_ok (st : RegistryState) (provider : Provider)
    (catalog : ModelCatalog) (m : ChatModel) (h : ¬ trimString m.id = "") :
    ∃ st2 pm, upsertProviderModel st provider catalog m = .ok (st2, pm) := by
  simp only [upsertProviderModel]
  rw [if_neg h]
  split
  · exact ⟨_, _, rfl⟩
  · exact ⟨_, _, rfl⟩

/-- The sync loop over a batch of models with non-empty identifiers:
it succeeds, aggregates one result per model, and a longer batch first
runs exactly this prefix and continues from its final state. -/
theorem syncModelsLoop_all_good (provider : Provider) :
    ∀ (pre : List ChatModel), (∀ m ∈ pre, ¬ trimString m.id = "") →
    ∀ (st : RegistryState) (acc : List ProviderModelSyncResult) (rest : List ChatModel),
    ∃ st1 res, syncModelsLoop provider st acc pre = (st1, .ok res) ∧
      res.length = acc.length + pre.length ∧
      syncModelsLoop provider st acc (pre ++ rest) = syncModelsLoop provider st1 res rest := by
  intro pre
  induction pre with
  | nil =>
    intro _ st acc rest
    exact ⟨st, acc, rfl, by simp, rfl⟩
  | cons m t ih =>
    intro hgood st acc rest
    have hm : ¬ trimString m.id = "" := hgood m (by simp)
    obtain ⟨st2, pm, hup⟩ :=
      upsertProviderModel_ok (upsertCatalog st provider.kind m).1 provider
        (upsertCatalog st provider.kind m).2 m hm
    have hstep : ∀ (ms : List ChatModel), syncModelsLoop provider st acc (m :: ms)
        = syncModelsLoop provider st2
            (acc ++ [⟨pm, (upsertCatalog st provider.kind m).2⟩]) ms := by
      intro ms
      rw [syncModelsLoop]
      simp only [hup]
    obtain ⟨st1, res, h1, hlen, h2⟩ :=
      ih (fun x hx => hgood x (by simp [hx])) st2
        (acc ++ [⟨pm, (upsertCatalog st provider.kind m).2⟩]) rest
    refine ⟨st1, res, ?_, ?_, ?_⟩
    · rw [hstep t, h1]
    · simp [List.length_append, List.length_cons] at hlen ⊢
      omega
    · show syncModelsLoop provider st acc ((m :: t) ++ rest) = syncModelsLoop provider st1 res rest
      rw [List.cons_append, hstep (t ++ rest), h2]

/-- **C6**: partial failure in a sync batch.  A batch whose models all
carry non-empty identifiers syncs completely (one aggregated result per
model — in particular arbitrary malformed vendor metadata never aborts a
batch); prepending such a prefix to a model with an empty (missing)
identifier makes the sync stop exactly there with the
`model identifier missing` error, the state keeping everything the prefix
committed (plus the bad model's own already-committed catalog upsert) —
nothing is rolled back and the models after the bad one are never
processed. -/
theorem syncModels_failfast_only_on_missing_key
    (st : RegistryState) (provider : Provider) (pre post : List ChatModel)
    (bad : ChatModel)
    (hpre : ∀ m ∈ pre, ¬ trimString m.id = "")
    (hbad : trimString bad.id = "") :
    ∃ st1 res, syncModels st provider pre = (st1, .ok res) ∧
      res.length = pre.length ∧
      syncModels st provider (pre ++ bad :: post) =
        ((upsertCatalog st1 provider.kind bad).1,
         .error ⟨"model identifier missing", "1c5c6609-6df1-41b0-8fd9-2fa337eb0050"⟩) := by
  obtain ⟨st1, res, h1, hlen, h2⟩ := syncModelsLoop_all_good provider pre hpre st [] (bad :: post)
  have herr : upsertProviderModel (upsertCatalog st1 provider.kind bad).1 provider
      (upsertCatalog st1 provider.kind bad).2 bad =
      .error ⟨"model identifier missing", "1c5c6609-6df1-41b0-8fd9-2fa337eb0050"⟩ := by
    simp only [upsertProviderModel]
    rw [if_pos hbad]
  refine ⟨st1, res, ?_, by simpa using hlen, ?_⟩
  · rw [syncModels, h1]
  · rw [syncModels, h2, syncModelsLoop]
    simp only [herr]

/-- Witness for C6: syncing `[a]` commits one row; syncing `[a, " ", b]`
stops at the empty identifier with the same committed prefix. -/
theorem syncModels_failfast_only_on_missing_key_witness :
    ∃ st1 res, syncModels c3St0 c3Prov [c6Good] = (st1, .ok res) ∧
      res.length = [c6Good].length ∧
      syncModels c3St0 c3Prov ([c6Good] ++ c6Bad :: [c6Post]) =
        ((upsertCatalog st1 c3Prov.kind c6Bad).1,
         .error ⟨"model identifier missing", "1c5c6609-6df1-41b0-8fd9-2fa337eb0050"⟩) :=
  syncModels_failfast_only_on_missing_key c3St0 c3Prov [c6Good] [c6Post] c6Bad
    (by decide) (by decide)

/-- **C7**: `SetModels` is idempotent on an unchanged model set.  After
any successful `SetModels(S, L)`, the change detector reports the cached
set for `S` as identical to `L`, so an immediately repeated
`SetModels(S, L)` takes the no-op early return: it performs no cache
deletion or write (the state is returned untouched) and returns nil. -/
theorem setModels_idempotent_on_unchanged (r : ModelRegistry) (st : CacheState)
    (serviceName : String) (models : List InferenceModel) (st' : CacheState)
    (h : setModels r st serviceName models = .ok st') :
    hasModelsChanged st' serviceName models = false ∧
      setModels r st' serviceName models = .ok st' := by
  rw [setModels] at h
  split at h
  · exact absurd h (by simp)
  next htrim =>
    split at h
    next hch =>
      cases h
      refine ⟨hch, ?_⟩
      rw [setModels, if_neg htrim, if_pos hch]
    next hch =>
      rw [rebuildModelToEndpointsMapping] at h
      simp only [] at h
      cases h
      have hch' : hasModelsChanged
          { modelsList := some models,
            endpointModels := setAssoc ([] : List (String × List String)) serviceName
              (models.map (·.id)),
            modelEndpoints := some (buildReverseMap r.serviceBaseURL models) }
          serviceName models = false := by
        rw [hasModelsChanged]
        simp [lookupAssoc, setAssoc, List.find?, any_not_contains_self]
      refine ⟨hch', ?_⟩
      rw [setModels, if_neg htrim, if_pos hch']

/-- Witness for C7: repeating `SetModels("svcA", [llama])` right after
its successful run is a no-op returning the same state. -/
theorem setModels_idempotent_on_unchanged_witness :
    hasModelsChanged c7St1 "svcA" [c7Model] = false ∧
      setModels c7Reg c7St1 "svcA" [c7Model] = .ok c7St1 :=
  setModels_idempotent_on_unchanged c7Reg CacheState.empty "svcA" [c7Model] c7St1 (by rfl)

/-- **C10**: the stored redacted key hint.  A successful
`RegisterProvider`, and a successful `UpdateProvider` whose patch
supplies an API key, store no hint when the trimmed key has fewer than 4
characters and otherwise store exactly its last 4 characters; for a
trimmed key of exactly 4 characters the hint is the whole key. -/
theorem apiKeyHint_last_four_stored (env : Env) (st : RegistryState) :
    (∀ input st' p, registerProvider env st input = .ok (st', p) →
      (if (trimString input.apiKey).data.length < 4 then p.apiKeyHint = none
       else p.apiKeyHint = some (String.mk ((trimString input.apiKey).data.drop
         ((trimString input.apiKey).data.length - 4))))) ∧
    (∀ provider input stU pU k, updateProvider env st provider input = .ok (stU, pU) →
      input.apiKey = some k →
      (if (trimString k).data.length < 4 then pU.apiKeyHint = none
       else pU.apiKeyHint = some (String.mk ((trimString k).data.drop
         ((trimString k).data.length - 4))))) ∧
    (∀ k, (trimString k).data.length = 4 → apiKeyHint k = some (trimString k)) := by
  refine ⟨?_, ?_, ?_⟩
  · intro input st' p h
    obtain ⟨_, _, _, hhint, _⟩ := registerProvider_ok_shape env st input st' p h
    rw [hhint]
    simp only [apiKeyHint, trimString_idem]
    split
    · rfl
    · rfl
  · intro provider input stU pU k h hk
    rw [updateProvider] at h
    split at h
    · exact absurd h (by simp)
    next p1 hp1 =>
    split at h
    · exact absurd h (by simp)
    next p2 hp2 =>
    split at h
    · exact absurd h (by simp)
    next p3 hp3 =>
    simp only [Except.ok.injEq, Prod.mk.injEq] at h
    obtain ⟨hst, hpU⟩ := h
    have hkeep : pU.apiKeyHint = p3.apiKeyHint := by
      rw [← hpU]
      cases hm : input.metadata <;> cases hac : input.active <;>
        simp [applyMetadataStep, applyActiveStep, hm, hac]
    rw [hk, updateAPIKeyStep] at hp3
    simp only at hp3
    split at hp3
    next hkey =>
      simp only [Except.ok.injEq] at hp3
      rw [hkeep, ← hp3]
      have hlt : (trimString k).data.length < 4 := by
        rw [hkey]
        simp
      rw [if_pos hlt]
    next hkey =>
      split at hp3
      · exact absurd hp3 (by simp)
      next hsecret =>
        simp only [Except.ok.injEq] at hp3
        rw [hkeep, ← hp3]
        simp only [apiKeyHint, trimString_idem]
        split
        · rfl
        · rfl
  · intro k hlen
    simp only [apiKeyHint, hlen]
    norm_num

/-- Witness for C10: registering with key `sk-abcd1234` stores the hint
`1234`, and a 4-character key is stored whole as its own hint. -/
theorem apiKeyHint_last_four_stored_witness :
    (∃ st' p, registerProvider exEnv c3St0 c10Input = .ok (st', p) ∧
      p.apiKeyHint = some "1234") ∧
    apiKeyHint "abcd" = some (trimString "abcd") := by
  constructor
  · have h : registerProvider exEnv c3St0 c10Input = .ok (c10St1, c10Prov) := by rfl
    refine ⟨c10St1, c10Prov, h, ?_⟩
    have := (apiKeyHint_last_four_stored exEnv c3St0).1 c10Input c10St1 c10Prov h
    simpa using this
  · exact (apiKeyHint_last_four_stored exEnv c3St0).2.2 "abcd" (by rfl)

/-- **C8**: an empty message list is rejected with HTTP 400 and the
`messages cannot be empty` error before provider resolution and before
any backend call — zero registry resolutions and zero backend chat-client
calls occur, whatever the streaming flag or the backend would have
answered. -/
theorem postCompletion_rejects_empty_messages
    (env : Env) (st : RegistryState) (userPresent : Bool)
    (projectsResult : Except String (List Nat)) (req : ChatCompletionRequest)
    (backendResult : Except CommonError Unit)
    (h : req.messages = []) :
    postCompletion env st userPresent projectsResult (.ok req) backendResult =
      ⟨400, some "0199600f-2cbe-7518-be5c-9989cce59472",
       some "messages cannot be empty", 0, 0⟩ := by
  simp [postCompletion, h]

/-- Witness for C8: the concrete empty-message request is rejected with
no resolution and no backend call, even with a healthy backend. -/
theorem postCompletion_rejects_empty_messages_witness :
    postCompletion exEnv c3St0 true (.ok []) (.ok c8Request) (.ok ()) =
      ⟨400, some "0199600f-2cbe-7518-be5c-9989cce59472",
       some "messages cannot be empty", 0, 0⟩ :=
  postCompletion_rejects_empty_messages exEnv c3St0 true (.ok []) c8Request (.ok ()) rfl

/-- `charListLt` is asymmetric. -/
theorem charListLt_asymm : ∀ (a b : List Char),
    charListLt a b = true → charListLt b a = false := by
  intro a
  induction a with
  | nil =>
    intro b h
    cases b with
    | nil => simp [charListLt] at h
    | cons y ys => simp [charListLt]
  | cons x xs ih =>
    intro b h
    cases b with
    | nil => simp [charListLt] at h
    | cons y ys =>
      rw [charListLt] at h ⊢
      by_cases h1 : x < y
      · rw [if_neg (lt_asymm h1), if_pos h1]
      · by_cases h2 : y < x
        · rw [if_neg h1, if_pos h2] at h
          simp at h
        · rw [if_neg h1, if_neg h2] at h
          rw [if_neg h2, if_neg h1]
          exact ih ys h

/-- `charListLt` is transitive. -/
theorem charListLt_trans : ∀ (a b c : List Char),
    charListLt a b = true → charListLt b c = true → charListLt a c = true := by
  intro a
  induction a with
  | nil =>
    intro b c hab hbc
    cases b with
    | nil => simp [charListLt] at hab
    | cons y ys =>
      cases c with
      | nil => simp [charListLt] at hbc
      | cons z zs => simp [charListLt]
  | cons x xs ih =>
    intro b c hab hbc
    cases b with
    | nil => simp [charListLt] at hab
    | cons y ys =>
      cases c with
      | nil => simp [charListLt] at hbc
      | cons z zs =>
        rw [charListLt] at hab hbc ⊢
        by_cases h1 : x < y
        · by_cases h3 : y < z
          · rw [if_pos (lt_trans h1 h3)]
          · by_cases h4 : z < y
            · rw [if_neg h3, if_pos h4] at hbc
              simp at hbc
            · have hyz : y = z := le_antisymm (not_lt.mp h4) (not_lt.mp h3)
              rw [if_pos (hyz ▸ h1)]
        · by_cases h2 : y < x
          · rw [if_neg h1, if_pos h2] at hab
            simp at hab
          · have hxy : x = y := le_antisymm (not_lt.mp h2) (not_lt.mp h1)
            rw [if_neg h1, if_neg h2] at hab
            subst hxy
            by_cases h3 : x < z
            · rw [if_pos h3]
            · by_cases h4 : z < x
              · rw [if_neg h3, if_pos h4] at hbc
                simp at hbc
              · rw [if_neg h3, if_neg h4] at hbc
                rw [if_neg h3, if_neg h4]
                exact ih ys zs hab hbc

/-- The listing comparator is asymmetric. -/
theorem summaryLess_asymm (a b : ProviderSummary) :
    summaryLess a b = true → summaryLess b a = false := by
  rw [summaryLess, summaryLess]
  by_cases hs : a.scope = b.scope
  · rw [if_pos hs, if_pos hs.symm]
    exact fun h => charListLt_asymm _ _ h
  · rw [if_neg hs, if_neg (fun he => hs he.symm)]
    intro h
    rw [decide_eq_true_iff] at h
    rw [decide_eq_false_iff_not]
    exact Nat.lt_asymm h

/-- The listing comparator is transitive (the scope rank being a
function of the scope label). -/
theorem summaryLess_trans (a b c : ProviderSummary) :
    summaryLess a b = true → summaryLess b c = true → summaryLess a c = true := by
  rw [summaryLess, summaryLess, summaryLess]
  by_cases hab : a.scope = b.scope
  · by_cases hbc : b.scope = c.scope
    · rw [if_pos hab, if_pos hbc, if_pos (hab.trans hbc)]
      exact fun h1 h2 => charListLt_trans _ _ _ h1 h2
    · rw [if_pos hab, if_neg hbc, if_neg (hab ▸ hbc)]
      intro _ h2
      rw [decide_eq_true_iff] at h2 ⊢
      rw [congrArg scopeOrderNat hab]
      exact h2
  · by_cases hbc : b.scope = c.scope
    · rw [if_neg hab, if_pos hbc, if_neg (hbc ▸ hab)]
      intro h1 _
      rw [decide_eq_true_iff] at h1 ⊢
      rw [← congrArg scopeOrderNat hbc]
      exact h1
    · rw [if_neg hab, if_neg hbc]
      intro h1 h2
      rw [decide_eq_true_iff] at h1 h2
      have hlt := Nat.lt_trans h1 h2
      by_cases hac : a.scope = c.scope
      · rw [congrArg scopeOrderNat hac] at hlt
        exact absurd hlt (Nat.lt_irrefl _)
      · rw [if_neg hac, decide_eq_true_iff]
        exact hlt

/-- Insertion keeps the list a permutation. -/
theorem insertSummary_perm (x : ProviderSummary) (l : List ProviderSummary) :
    (insertSummary x l).Perm (x :: l) := by
  induction l with
  | nil => exact List.Perm.refl _
  | cons y t ih =>
    rw [insertSummary]
    split
    · exact List.Perm.refl _
    · exact (ih.cons y).trans (List.Perm.swap x y t)

/-- The listing sort permutes its input. -/
theorem sortSummaries_perm (l : List ProviderSummary) :
    (sortSummaries l).Perm l := by
  induction l with
  | nil => exact List.Perm.refl _
  | cons x t ih =>
    rw [sortSummaries]
    exact (insertSummary_perm x (sortSummaries t)).trans (ih.cons x)

/-- Insertion into a comparator-sorted list keeps it sorted. -/
theorem insertSummary_pairwise (x : ProviderSummary) (l : List ProviderSummary)
    (h : l.Pairwise (fun a b => summaryLess b a = false)) :
    (insertSummary x l).Pairwise (fun a b => summaryLess b a = false) := by
  induction l with
  | nil => simp [insertSummary]
  | cons y t ih =>
    obtain ⟨hy, ht⟩ := List.pairwise_cons.mp h
    rw [insertSummary]
    split
    next hxy =>
      refine List.pairwise_cons.mpr ⟨?_, h⟩
      intro z hz
      rcases List.mem_cons.mp hz with rfl | hzt
      · exact summaryLess_asymm _ _ hxy
      · cases hb : summaryLess z x
        · rfl
        · have hzy : summaryLess z y = true := summaryLess_trans _ _ _ hb hxy
          rw [hy z hzt] at hzy
          cases hzy
    next hxy =>
      refine List.pairwise_cons.mpr ⟨?_, ih ht⟩
      intro z hz
      have hz' := (insertSummary_perm x t).mem_iff.mp hz
      rcases List.mem_cons.mp hz' with rfl | hzt
      · cases hb : summaryLess z y
        · rfl
        · exact absurd hb hxy
      · exact hy z hzt

/-- The listing sort's output is sorted under the comparator. -/
theorem sortSummaries_pairwise (l : List ProviderSummary) :
    (sortSummaries l).Pairwise (fun a b => summaryLess b a = false) := by
  induction l with
  | nil => simp [sortSummaries]
  | cons x t ih =>
    rw [sortSummaries]
    exact insertSummary_pairwise x (sortSummaries t) ih

/-- **C9** (counterexample): the claim's ordering — project-scoped
first, then organization, then platform-default — fails on the code.
With the project-scoped `Alpha` and the platform-default `Beta`, the
listing returns the platform-default (`jan`) entry first: the handler
sorts ascending by `scopeOrder` with `jan = 0`, `organization = 1`,
`project = 2`. -/
theorem listProviders_scope_order_counterexample :
    (listProviders [] [c9ProjProv, c9JanProv]).map (fun s => s.scope)
      = ["jan", "project"] ∧
    ¬ ((listProviders [] [c9ProjProv, c9JanProv]).map (fun s => s.scope)
      = ["project", "jan"]) :=
  ⟨by rfl, by decide⟩

/-- **C9** (amended): the provider listing returns exactly the caller's
accessible providers, each tagged with its resolved scope label
(`project` / `organization` / platform-default `jan`), sorted by scope
rank with the platform default first, then organization, then project —
the reverse of the claimed scope order — and by provider name within one
scope label. -/
theorem listProviders_platform_default_first
    (projectPublicIDs : List (Nat × String)) (providers : List Provider) :
    (listProviders projectPublicIDs providers).Perm
      (providers.map (summarize projectPublicIDs)) ∧
    (listProviders projectPublicIDs providers).Pairwise
      (fun a b => scopeOrderNat a.scope ≤ scopeOrderNat b.scope ∧
        (a.scope = b.scope → stringLt b.name a.name = false)) := by
  constructor
  · exact sortSummaries_perm _
  · refine (sortSummaries_pairwise _).imp ?_
    intro a b h
    rw [summaryLess] at h
    by_cases hs : b.scope = a.scope
    · rw [if_pos hs] at h
      rw [congrArg scopeOrderNat hs]
      exact ⟨Nat.le_refl _, fun _ => h⟩
    · rw [if_neg hs] at h
      rw [decide_eq_false_iff_not] at h
      refine ⟨Nat.le_of_not_lt h, ?_⟩
      intro he
      exact absurd he.symm hs

/-- Witness for C9 (amended): the two-provider listing is a permutation
of its tagged summaries and sorted platform-default first. -/
theorem listProviders_platform_default_first_witness :
    (listProviders [] [c9ProjProv, c9JanProv]).Perm
      ([c9ProjProv, c9JanProv].map (summarize [])) ∧
    (listProviders [] [c9ProjProv, c9JanProv]).Pairwise
      (fun a b => scopeOrderNat a.scope ≤ scopeOrderNat b.scope ∧
        (a.scope = b.scope → stringLt b.name a.name = false)) :=
  listProviders_platform_default_first [] [c9ProjProv, c9JanProv]

end JanGateway
